import Mathlib

/-!
# ND_CAFMaker: truth matching (`src/truth/FillTruth.cxx`) and the
reconstruction filler (`src/reco/MLNDLArRecoBranchFiller.cxx`)

A shallow embedding of `TruthMatcher::FillInteraction`, `TruthMatcher::GetTrueInteraction`
and `TruthMatcher::GetTrueParticle`, and of `FillTruth`, `FillInteractions`,
`FillTracks` and `FillShowers` of `MLNDLArRecoBranchFiller`, followed by the
properties established about them.

Conventions of the embedding.

* C++ `int`/`long` values are mathematical integers (`Int`).  The counters of the
  converter are bounded by the number of entries of the particle stack, which is
  itself an `int`, so no counter of a fresh interaction can wrap.
* `float`/`double` values are rationals (`ℚ`) with exact `+`, `-`, `*`; division and
  square root are the two operations of a `FloatOps` argument and are left
  uninterpreted by the definitions.
* A floating-point field of a destination record is an `Option ℚ`: `none` is the
  field as left by the default constructor (never assigned), `some v` is the
  field after the assignment of `v`.
* A `std::vector` is a `List`; a C++ reference into a vector is the position of
  the element in that vector.
* A function of the truth matcher that throws or aborts returns its outcome
  together with the destination record and the generator tree as they are at
  that moment.  A function of the reconstruction filler either returns the
  record it leaves or ends the process (`abort()`, undefined behaviour).
-/

namespace cafmaker

/-! ## ROOT vectors -/

/-- The `TVector3` of ROOT: three cartesian components. -/
structure TVector3 where
  x : ℚ := 0
  y : ℚ := 0
  z : ℚ := 0
  deriving DecidableEq

/-- The `TLorentzVector` of ROOT; the default constructor gives the zero vector. -/
structure TLorentzVector where
  x : ℚ := 0
  y : ℚ := 0
  z : ℚ := 0
  t : ℚ := 0
  deriving DecidableEq

/-- Source: `TVector3::Mag2`. -/
def TVector3.Mag2 (v : TVector3) : ℚ := v.x * v.x + v.y * v.y + v.z * v.z

/-- Source: `TLorentzVector::Vect`. -/
def TLorentzVector.Vect (v : TLorentzVector) : TVector3 := { x := v.x, y := v.y, z := v.z }

/-- Source: `TLorentzVector::E`. -/
def TLorentzVector.E (v : TLorentzVector) : ℚ := v.t

/-- Source: `TLorentzVector::T`. -/
def TLorentzVector.T (v : TLorentzVector) : ℚ := v.t

/-- Source: `TLorentzVector::Mag2`, the invariant `t^2 - |vec|^2`. -/
def TLorentzVector.Mag2 (v : TLorentzVector) : ℚ := v.t * v.t - v.Vect.Mag2

/-- Source: `TLorentzVector::operator-`. -/
def TLorentzVector.sub (a b : TLorentzVector) : TLorentzVector :=
  { x := a.x - b.x, y := a.y - b.y, z := a.z - b.z, t := a.t - b.t }

/-- The two floating-point operations that the embedding does not interpret. -/
structure FloatOps where
  /-- Floating-point division `a / b`. -/
  div : ℚ → ℚ → ℚ
  /-- The `sqrt` of `<cmath>`. -/
  sqrt : ℚ → ℚ

/-- Exact division, and the rational square root (exact on squares of rationals). -/
def FloatOps.exact : FloatOps := { div := fun a b => a / b, sqrt := Rat.sqrt }

/-- Source: `TVector3::Mag`. -/
def TVector3.Mag (ops : FloatOps) (v : TVector3) : ℚ := ops.sqrt v.Mag2

/-! ## GENIE side -/

/-- The `genie::EGHepStatus` markers of a particle-stack entry. -/
inductive EGHepStatus
  | kIStUndefined
  | kIStInitialState
  | kIStStableFinalState
  | kIStIntermediateState
  | kIStDecayedState
  | kIStCorrelatedNucleon
  | kIStNucleonTarget
  | kIStDISPreFragmHadronicState
  | kIStPreDecayResonantState
  | kIStHadronInTheNucleus
  | kIStFinalStateNuclearRemnant
  | kIStNucleonClusterTarget
  deriving DecidableEq

/-- The `genie::EScatteringType` values; `unlisted` stands for every enumerator
that the `switch` of `GENIE2CAF` does not name. -/
inductive EScatteringType
  | kScQuasiElastic
  | kScSingleKaon
  | kScDeepInelastic
  | kScResonant
  | kScCoherentProduction
  | kScDiffractive
  | kScNuElectronElastic
  | kScInverseMuDecay
  | kScAMNuGamma
  | kScMEC
  | kScCoherentElastic
  | kScInverseBetaDecay
  | kScGlashowResonance
  | kScIMDAnnihilation
  | kScPhotonCoherent
  | kScPhotonResonance
  | kScDarkMatterElastic
  | kScDarkMatterDeepInelastic
  | kScDarkMatterElectron
  | kScUnknown
  | kScNull
  | unlisted (code : Int)
  deriving DecidableEq

/-- One entry of the GENIE particle stack (`genie::GHepParticle`), as read by the converter. -/
structure GHepParticle where
  Status : EGHepStatus
  Pdg : Int
  P4 : TLorentzVector := {}
  X4 : TLorentzVector := {}
  deriving DecidableEq

/-- One row of the generator tree (`genie::NtpMCEventRecord`): the header id and
the values that `FillInteraction` reads through the event and its summary. -/
structure NtpMCEventRecord where
  /-- Source: `hdr.ievent` -/
  ievent : Int
  /-- Source: `event->Vertex()` -/
  Vertex : TLorentzVector := {}
  /-- Source: `InitState().ProbePdg()` -/
  ProbePdg : Int := 14
  /-- Source: `ProcInfo().IsWeakCC()` -/
  IsWeakCC : Bool := true
  /-- Source: `ProcInfo().ScatteringTypeId()` -/
  ScatteringTypeId : EScatteringType := .kScQuasiElastic
  /-- Source: `InitState().Tgt().Pdg()` -/
  TgtPdg : Int := 1000180400
  /-- Source: `InitState().Tgt().HitNucPdg()` -/
  HitNucPdg : Int := 2112
  /-- Source: `InitState().GetProbeP4(kRfHitNucRest)` -/
  ProbeP4HitNucRest : TLorentzVector := {}
  /-- Source: `InitState().GetProbeP4(kRfLab)` -/
  ProbeP4Lab : TLorentzVector := {}
  /-- Source: `InitState().ProbeE(kRfLab)` -/
  ProbeE : ℚ := 0
  /-- Source: `Kine().t()` -/
  Kine_t : ℚ := 0
  /-- Source: `ExclTag().IsCharmEvent()` -/
  IsCharmEvent : Bool := false
  /-- Source: `ProcInfo().IsDeepInelastic()` -/
  IsDeepInelastic : Bool := false
  /-- Source: `InitState().Tgt().HitSeaQrk()` -/
  HitSeaQrk : Bool := false
  /-- Source: `ExclTag().Resonance()` -/
  Resonance : Int := 0
  /-- Source: `event->XSec()` -/
  XSec : ℚ := 0
  /-- Source: `event->Weight()` -/
  Weight : ℚ := 1
  /-- The particle stack, `(*event)[0 .. GetEntries()-1]`. -/
  particles : List GHepParticle := []
  deriving DecidableEq

/-! ## Destination record -/

/-- The `caf::ScatteringMode` values returned by `GENIE2CAF`. -/
inductive ScatteringMode
  | kUnknownMode
  | kQE
  | kSingleKaon
  | kDIS
  | kRes
  | kCoh
  | kDiffractive
  | kNuElectronElastic
  | kInvMuonDecay
  | kAMNuGamma
  | kMEC
  | kCohElastic
  | kInverseBetaDecay
  | kGlashowResonance
  | kIMDAnnihilation
  | kPhotonCoh
  | kPhotonRes
  | kDarkMatterElastic
  | kDarkMatterDIS
  | kDarkMatterElectron
  deriving DecidableEq

/-- Outcomes other than a normal return. -/
inductive Err
  /-- Source: `std::runtime_error`: lookup with creation disabled found nothing. -/
  | NotFound
  /-- Source: `std::runtime_error`: "Could not locate GENIE event record". -/
  | UpstreamRecordMissing
  /-- Source: `abort()` in the `default` case of `GENIE2CAF`. -/
  | UnknownScatteringMode
  /-- Behaviour the C++ standard leaves undefined (remainder by zero, `int`
  overflow of the loop index, reading the event buffer with no entry loaded). -/
  | Undefined
  /-- The scan loop was still running when the fuel of the model ran out. -/
  | OutOfFuel
  /-- Source: `abort()` of `FillTracks`: "Particle's interaction ID does not match
  any in the DLP set". -/
  | DanglingReference
  deriving DecidableEq

deriving instance DecidableEq for Except

/-- The `caf::SRVector3D` of the record. -/
structure SRVector3D where
  x : Option ℚ := none
  y : Option ℚ := none
  z : Option ℚ := none
  deriving DecidableEq

/-- The `caf::SRLorentzVector` of the record. -/
structure SRLorentzVector where
  E : Option ℚ := none
  px : Option ℚ := none
  py : Option ℚ := none
  pz : Option ℚ := none
  deriving DecidableEq

/-- Conversion `SRVector3D(const TVector3 &)`. -/
def SRVector3D.ofTVector3 (v : TVector3) : SRVector3D :=
  { x := some v.x, y := some v.y, z := some v.z }

/-- Conversion `SRLorentzVector(const TLorentzVector &)`. -/
def SRLorentzVector.ofTLorentzVector (v : TLorentzVector) : SRLorentzVector :=
  { E := some v.t, px := some v.x, py := some v.y, pz := some v.z }

/-- The role tags of `caf::TrueParticleID`. -/
inductive PartType
  | kUnknown
  | kPrimary
  | kPrimaryBeforeFSI
  | kSecondary
  deriving DecidableEq

/-- The `caf::TrueParticleID` ancestry tag. -/
structure TrueParticleID where
  ixn : Int := -1
  type : PartType := .kUnknown
  part : Int := -1
  deriving DecidableEq

/-- Modelled from the spec: the declaration of `caf::SRTrueParticle` is not among
the sources; the fields are those the code assigns, "physics fields left default"
by the default constructor. -/
structure SRTrueParticle where
  pdg : Int := 0
  G4ID : Int := -1
  interaction_id : Int := -1
  time : Option ℚ := none
  ancestor_id : TrueParticleID := {}
  p : SRLorentzVector := {}
  start_pos : SRVector3D := {}
  end_pos : SRVector3D := {}
  deriving DecidableEq

/-- Modelled from the spec: the declaration of `caf::SRTrueInteraction` is not
among the sources; the fields are those the code assigns or counts, with empty
collections and zero counters in a default-constructed value. -/
structure SRTrueInteraction where
  id : Int := -1
  vtx : SRVector3D := {}
  time : Option ℚ := none
  pdg : Int := 0
  pdgorig : Int := 0
  iscc : Bool := false
  mode : ScatteringMode := .kUnknownMode
  targetPDG : Int := 0
  hitnuc : Int := 0
  E : Option ℚ := none
  momentum : SRVector3D := {}
  Q2 : Option ℚ := none
  q0 : Option ℚ := none
  modq : Option ℚ := none
  W : Option ℚ := none
  bjorkenX : Option ℚ := none
  inelasticity : Option ℚ := none
  t : Option ℚ := none
  ischarm : Bool := false
  isseaquark : Bool := false
  resnum : Int := 0
  xsec : Option ℚ := none
  genweight : Option ℚ := none
  nproton : Int := 0
  nneutron : Int := 0
  npip : Int := 0
  npim : Int := 0
  npi0 : Int := 0
  nprim : Int := 0
  prim : List SRTrueParticle := []
  nprefsi : Int := 0
  prefsi : List SRTrueParticle := []
  nsec : Int := 0
  sec : List SRTrueParticle := []
  xsec_cvwgt : Option ℚ := none
  deriving DecidableEq

/-- The `caf::SRTruthBranch`, `sr.mc`. -/
structure SRTruthBranch where
  nu : List SRTrueInteraction := []
  nnu : Int := 0
  deriving DecidableEq

/-- The `caf::SRDirectionBranch` of a reconstructed interaction. -/
structure SRDirectionBranch where
  lngtrk : SRVector3D := {}
  deriving DecidableEq

/-- Modelled from the spec: the declaration of `caf::SRInteraction` is not among
the sources; a reconstructed interaction carries its id, its vertex and a
direction summary. -/
structure SRInteraction where
  id : Int := -1
  vtx : SRVector3D := {}
  dir : SRDirectionBranch := {}
  deriving DecidableEq

/-- The `caf::SRInteractionBranch`, `sr.common.ixn`. -/
structure SRInteractionBranch where
  dlp : List SRInteraction := []
  ndlp : Int := 0
  deriving DecidableEq

/-- The `caf::SRCommonRecoBranch`, `sr.common`. -/
structure SRCommonRecoBranch where
  ixn : SRInteractionBranch := {}
  deriving DecidableEq

/-- Modelled from the spec: the declaration of `caf::SRTrack` is not among the
sources; the fields are those `FillTracks` assigns (`end_` is the field `end`). -/
structure SRTrack where
  Evis : Option ℚ := none
  start : SRVector3D := {}
  end_ : SRVector3D := {}
  dir : SRVector3D := {}
  enddir : SRVector3D := {}
  len_cm : Option ℚ := none
  deriving DecidableEq

/-- Modelled from the spec: the declaration of `caf::SRShower` is not among the
sources; the fields are those `FillShowers` assigns. -/
structure SRShower where
  Evis : Option ℚ := none
  start : SRVector3D := {}
  direction : SRVector3D := {}
  deriving DecidableEq

/-- Modelled from the spec: the per-interaction object container
`caf::SRNDLArInt`, an element of `sr.nd.lar.dlp`, owns the track and the shower
sequence of one reconstructed interaction. -/
structure SRNDLArInt where
  tracks : List SRTrack := []
  showers : List SRShower := []
  deriving DecidableEq

/-- The `caf::SRNDLAr`, `sr.nd.lar`. -/
structure SRNDLAr where
  dlp : List SRNDLArInt := []
  deriving DecidableEq

/-- The `caf::SRNDBranch`, `sr.nd`. -/
structure SRNDBranch where
  lar : SRNDLAr := {}
  deriving DecidableEq

/-- The part of `caf::StandardRecord` that the truth matcher and the
reconstruction filler work on. -/
structure StandardRecord where
  mc : SRTruthBranch := {}
  common : SRCommonRecoBranch := {}
  nd : SRNDBranch := {}
  deriving DecidableEq

/-! ## `GENIE2CAF` and `TruthMatcher::FillInteraction` -/

/-- The `switch` of `GENIE2CAF`; the `default` case aborts. -/
def GENIE2CAF : EScatteringType → Except Err ScatteringMode
  | .kScQuasiElastic => .ok .kQE
  | .kScSingleKaon => .ok .kSingleKaon
  | .kScDeepInelastic => .ok .kDIS
  | .kScResonant => .ok .kRes
  | .kScCoherentProduction => .ok .kCoh
  | .kScDiffractive => .ok .kDiffractive
  | .kScNuElectronElastic => .ok .kNuElectronElastic
  | .kScInverseMuDecay => .ok .kInvMuonDecay
  | .kScAMNuGamma => .ok .kAMNuGamma
  | .kScMEC => .ok .kMEC
  | .kScCoherentElastic => .ok .kCohElastic
  | .kScInverseBetaDecay => .ok .kInverseBetaDecay
  | .kScGlashowResonance => .ok .kGlashowResonance
  | .kScIMDAnnihilation => .ok .kIMDAnnihilation
  | .kScPhotonCoherent => .ok .kPhotonCoh
  | .kScPhotonResonance => .ok .kPhotonRes
  | .kScDarkMatterElastic => .ok .kDarkMatterElastic
  | .kScDarkMatterDeepInelastic => .ok .kDarkMatterDIS
  | .kScDarkMatterElectron => .ok .kDarkMatterElectron
  | .kScUnknown => .ok .kUnknownMode
  | .kScNull => .ok .kUnknownMode
  | .unlisted _ => .error .UnknownScatteringMode

/-- The average nucleon mass `Mnuc = 0.939` of `FillInteraction`. -/
def Mnuc : ℚ := 939 / 1000

/-- Lines 185-189: the `if`/`else if` chain over the five counted species. -/
def countSpecies (nu : SRTrueInteraction) (pdg : Int) : SRTrueInteraction :=
  if pdg = 2212 then { nu with nproton := nu.nproton + 1 }
  else if pdg = 2112 then { nu with nneutron := nu.nneutron + 1 }
  else if pdg = 211 then { nu with npip := nu.npip + 1 }
  else if pdg = -211 then { nu with npim := nu.npim + 1 }
  else if pdg = 111 then { nu with npi0 := nu.npi0 + 1 }
  else nu

/-- One iteration of the particle loop (lines 164-194) on the pair of the
interaction being filled and the local counter `stableCtr`. -/
def particleStep (s : SRTrueInteraction × Int) (p : GHepParticle) : SRTrueInteraction × Int :=
  let nu := s.1
  let stableCtr := s.2
  if p.Status ≠ .kIStStableFinalState ∧ p.Status ≠ .kIStHadronInTheNucleus then s
  else
    let part : SRTrueParticle :=
      { pdg := p.Pdg
        interaction_id := nu.id
        time := nu.time
        p := SRLorentzVector.ofTLorentzVector p.P4
        start_pos := SRVector3D.ofTVector3 p.X4.Vect }
    if p.Status ≠ .kIStStableFinalState then
      let part := { part with G4ID := stableCtr }
      (countSpecies { nu with prim := nu.prim ++ [part] } p.Pdg, stableCtr + 1)
    else
      ({ nu with prefsi := nu.prefsi ++ [part] }, stableCtr)

/-- The particle loop of `FillInteraction`: `stableCtr` starts at `0` and the
stack is walked in order. -/
def particleLoop (nu : SRTrueInteraction) (stack : List GHepParticle) : SRTrueInteraction × Int :=
  stack.foldl particleStep (nu, 0)

/-- Lines 115-159 of `FillInteraction`: every assignment before the particle loop,
in source order.  `GENIE2CAF` may abort, which ends the process, so the
assignments made before it are not observable.  The fields `t` and `resnum` are
assigned only under their `if`. -/
def fillHeader (ops : FloatOps) (nu : SRTrueInteraction) (gEvt : NtpMCEventRecord) :
    Except Err SRTrueInteraction :=
  match GENIE2CAF gEvt.ScatteringTypeId with
  | .error e => .error e
  | .ok mode =>
    let vtx := gEvt.Vertex
    let lepP4 : TLorentzVector := {}
    let nuP4 := gEvt.ProbeP4Lab
    let E := gEvt.ProbeE
    let q := nuP4.sub lepP4
    let Q2 := -q.Mag2
    let q0 := q.E
    .ok { nu with
      id := gEvt.ievent
      vtx := SRVector3D.ofTVector3 vtx.Vect
      time := some vtx.T
      pdg := gEvt.ProbePdg
      pdgorig := gEvt.ProbePdg
      iscc := gEvt.IsWeakCC
      mode := mode
      targetPDG := gEvt.TgtPdg
      hitnuc := gEvt.HitNucPdg
      E := some E
      momentum := SRVector3D.ofTVector3 nuP4.Vect
      Q2 := some Q2
      q0 := some q0
      modq := some (q.Vect.Mag ops)
      W := some (ops.sqrt (Mnuc * Mnuc + 2 * q0 * Mnuc + q.Mag2))
      bjorkenX := some (ops.div Q2 (2 * Mnuc * q0))
      inelasticity := some (ops.div q0 E)
      t := if mode = .kCoh ∨ mode = .kDiffractive then some gEvt.Kine_t else nu.t
      ischarm := gEvt.IsCharmEvent
      isseaquark := gEvt.IsDeepInelastic && gEvt.HitSeaQrk
      resnum := if mode = .kRes then gEvt.Resonance else nu.resnum
      xsec := some gEvt.XSec
      genweight := some gEvt.Weight }

/-- Source: `TruthMatcher::FillInteraction(nu, gEvt)`: header and kinematics, then the
particle loop, then `xsec_cvwgt = 1`. -/
def FillInteraction (ops : FloatOps) (nu : SRTrueInteraction) (gEvt : NtpMCEventRecord) :
    Except Err SRTrueInteraction :=
  match fillHeader ops nu gEvt with
  | .error e => .error e
  | .ok nu =>
    let nu := (particleLoop nu gEvt.particles).1
    .ok { nu with xsec_cvwgt := some 1 }

/-! ## The generator tree -/

/-- The generator `TTree` together with the event buffer bound to it: the rows,
and the number of the entry last read (`-1` before the first read).  The buffer
`fGEvt` holds the row last read. -/
structure GTree where
  rows : List NtpMCEventRecord
  fReadEntry : Int := -1
  deriving DecidableEq

/-- Source: `TTree::GetEntries`. -/
def GTree.GetEntries (t : GTree) : Int := t.rows.length

/-- Source: `TTree::GetReadEvent`. -/
def GTree.GetReadEvent (t : GTree) : Int := t.fReadEntry

/-- Source: `TTree::GetEntry(entry)`: an entry number outside `0 .. GetEntries()-1` reads
nothing and leaves the tree as it is. -/
def GTree.GetEntry (t : GTree) (entry : Int) : GTree :=
  if entry < 0 ∨ entry ≥ t.GetEntries then t else { t with fReadEntry := entry }

/-- The content of the buffer `*fGEvt`: the row last read, if any. -/
def GTree.fGEvt (t : GTree) : Option NtpMCEventRecord :=
  if t.fReadEntry < 0 then none else t.rows[t.fReadEntry.toNat]?

/-! ## `TruthMatcher::GetTrueInteraction` and `TruthMatcher::GetTrueParticle` -/

/-- The position `std::find_if` returns: the first element satisfying `p`, or
`none` for the `end()` iterator. -/
def find_if {α : Type} (p : α → Bool) : List α → Option Nat
  | [] => none
  | a :: as => if p a then some 0 else (find_if p as).map (· + 1)

/-- The `for` loop of lines 266-272, entered with the loop index `evtIdx`.
The condition is tested first; each iteration reads entry
`evtIdx % GetEntries()` and stops on a matching id.  `%` is the truncating
remainder of C++. -/
def scanLoop (ixnID : Int) : Nat → GTree → Int → Except Err GTree
  | fuel, t, evtIdx =>
    if t.GetEntries = 0 then .error .Undefined
    else if Int.tmod evtIdx t.GetEntries = t.GetReadEvent then .ok t
    else
      match fuel with
      | 0 => .error .OutOfFuel
      | fuel + 1 =>
        let t := t.GetEntry (Int.tmod evtIdx t.GetEntries)
        match t.fGEvt with
        | none => .error .Undefined
        | some gEvt =>
          if gEvt.ievent = ixnID then .ok t
          else if evtIdx + 1 ≥ 2 ^ 31 then .error .Undefined
          else scanLoop ixnID fuel t (evtIdx + 1)

/-- Source: `TruthMatcher::GetTrueInteraction(sr, ixnID, createNew)`.  The result is the
position in `sr.mc.nu` of the interaction referred to, with the record and the
tree after the call. -/
def GetTrueInteraction (ops : FloatOps) (fuel : Nat) (sr : StandardRecord) (t : GTree)
    (ixnID : Int) (createNew : Bool) : Except Err Nat × StandardRecord × GTree :=
  match find_if (fun ixn => decide (ixn.id = ixnID)) sr.mc.nu with
  | some i => (.ok i, sr, t)
  | none =>
    if !createNew then (.error .NotFound, sr, t)
    else
      let t := if t.GetReadEvent < 0 then t.GetEntry 0 else t
      match scanLoop ixnID fuel t t.GetReadEvent with
      | .error e => (.error e, sr, t)
      | .ok t =>
        match t.fGEvt with
        | none => (.error .Undefined, sr, t)
        | some gEvt =>
          if gEvt.ievent ≠ ixnID then (.error .UpstreamRecordMissing, sr, t)
          else
            let pos := sr.mc.nu.length
            match FillInteraction ops {} gEvt with
            | .error e =>
              (.error e, { sr with mc := { sr.mc with nu := sr.mc.nu ++ [{}], nnu := sr.mc.nnu + 1 } }, t)
            | .ok ixn =>
              (.ok pos, { sr with mc := { sr.mc with nu := sr.mc.nu ++ [ixn], nnu := sr.mc.nnu + 1 } }, t)

/-- The body of the `if` of lines 236-241 applied to the owning interaction: a
default particle is appended to the chosen collection, its counter is
incremented and the two id fields are set. -/
def appendStub (ixn : SRTrueInteraction) (ixnID G4ID : Int) (isPrimary : Bool) : SRTrueInteraction :=
  let part : SRTrueParticle := { G4ID := G4ID, interaction_id := ixnID }
  if isPrimary then { ixn with prim := ixn.prim ++ [part], nprim := ixn.nprim + 1 }
  else { ixn with sec := ixn.sec ++ [part], nsec := ixn.nsec + 1 }

/-- The collection `(isPrimary) ? ixn.prim : ixn.sec`. -/
def collection (ixn : SRTrueInteraction) (isPrimary : Bool) : List SRTrueParticle :=
  if isPrimary then ixn.prim else ixn.sec

/-- The counter `(isPrimary) ? ixn.nprim : ixn.nsec`. -/
def counter (ixn : SRTrueInteraction) (isPrimary : Bool) : Int :=
  if isPrimary then ixn.nprim else ixn.nsec

/-- Source: `TruthMatcher::GetTrueParticle(sr, ixnID, G4ID, isPrimary, createNew)`.  The
result is the pair of the position of the owning interaction in `sr.mc.nu` and
the position of the particle in the chosen collection of that interaction. -/
def GetTrueParticle (ops : FloatOps) (fuel : Nat) (sr : StandardRecord) (t : GTree)
    (ixnID G4ID : Int) (isPrimary createNew : Bool) :
    Except Err (Nat × Nat) × StandardRecord × GTree :=
  match GetTrueInteraction ops fuel sr t ixnID createNew with
  | (.error e, sr, t) => (.error e, sr, t)
  | (.ok i, sr, t) =>
    match sr.mc.nu[i]? with
    | none => (.error .Undefined, sr, t)
    | some ixn =>
      match find_if (fun part => decide (part.G4ID = G4ID)) (collection ixn isPrimary) with
      | some j => (.ok (i, j), sr, t)
      | none =>
        if !createNew then (.error .NotFound, sr, t)
        else
          (.ok (i, (collection ixn isPrimary).length),
            { sr with mc := { sr.mc with nu := sr.mc.nu.set i (appendStub ixn ixnID G4ID isPrimary) } }, t)

/-! ## Rows of the reconstruction file (`cafmaker::types::dlp`) -/

/-- The semantic-type tag of a reconstructed particle row. -/
inductive SemanticType
  | kShower
  | kTrack
  | kMichel
  | kDelta
  | kLowEDep
  | kGhost
  | kUnknown
  deriving DecidableEq

/-- A `std::array<double, 3>` of a row, components `[0]`, `[1]`, `[2]`. -/
structure Double3 where
  c0 : ℚ := 0
  c1 : ℚ := 0
  c2 : ℚ := 0
  deriving DecidableEq

/-- Brace initialisation `{a[0], a[1], a[2]}` of a `caf::SRVector3D`. -/
def SRVector3D.ofArray (a : Double3) : SRVector3D :=
  { x := some a.c0, y := some a.c1, z := some a.c2 }

/-- Modelled from the spec: a reconstructed particle row (`dlp::Particle`), with
the columns that `FillTracks` and `FillShowers` read. -/
structure dlp.Particle where
  interaction_id : Int
  semantic_type : SemanticType
  depositions_sum : ℚ := 0
  start_point : Double3 := {}
  end_point : Double3 := {}
  start_dir : Double3 := {}
  end_dir : Double3 := {}
  deriving DecidableEq

/-- Modelled from the spec: a reconstructed interaction row (`dlp::Interaction`),
with the columns that `FillInteractions` reads. -/
structure dlp.Interaction where
  id : Int
  vertex : Double3 := {}
  deriving DecidableEq

/-- Modelled from the spec: a truth particle row (`dlp::TrueParticle`), with the
columns that `FillTruth` reads. -/
structure dlp.TrueParticle where
  is_primary : Bool
  interaction_id : Int
  depositions_sum : ℚ := 0
  start_point : Double3 := {}
  end_point : Double3 := {}
  momentum : Double3 := {}
  deriving DecidableEq

/-- Modelled from the spec: a truth interaction row (`dlp::TrueInteraction`), with
the columns that `FillTruth` reads; `particle_ids` is a variable-length column. -/
structure dlp.TrueInteraction where
  id : Int
  vertex : Double3 := {}
  nu_current_type : Int := 0
  nu_energy_init : ℚ := 0
  num_primaries : Int := 0
  particle_ids : List Int := []
  deriving DecidableEq

/-! ## `MLNDLArRecoBranchFiller` -/

/-- The effect of `std::vector::resize(n)`: the first `n` elements are kept and
default elements `d` are appended up to length `n`. -/
def resize {α : Type} (l : List α) (n : Nat) (d : α) : List α :=
  l.take n ++ List.replicate (n - l.length) d

/-- A range-based `for` loop whose body may end the process: the body `step`
is run on the elements in order, from the state `s`. -/
def forEach {σ α : Type} (step : σ → α → Except Err σ) : σ → List α → Except Err σ
  | s, [] => .ok s
  | s, a :: as =>
    match step s a with
    | .error e => .error e
    | .ok s' => forEach step s' as

/-- Assignment of a new value to the vector `sr.nd.lar.dlp`. -/
def StandardRecord.setNDLArDlp (sr : StandardRecord) (l : List SRNDLArInt) : StandardRecord :=
  { sr with nd := { sr.nd with lar := { sr.nd.lar with dlp := l } } }

/-- Assignment of a new value to the vector `sr.mc.nu`. -/
def StandardRecord.setNu (sr : StandardRecord) (l : List SRTrueInteraction) : StandardRecord :=
  { sr with mc := { sr.mc with nu := l } }

/-- Lines 109-112 of `FillInteractions`: the reconstructed interaction built from a row. -/
def mkInteraction (inx : dlp.Interaction) : SRInteraction :=
  { id := inx.id
    vtx := SRVector3D.ofArray inx.vertex
    dir := { lngtrk := { x := some 1, y := some 2, z := some 3 } } }

/-- `MLNDLArRecoBranchFiller::FillInteractions(evtIdx, Inxns, sr)`: `ndlp` is set
to the row count and one interaction per row is pushed, in row order
(`reserve` changes no content). -/
def FillInteractions (_evtIdx : Nat) (Inxns : List dlp.Interaction) (sr : StandardRecord) :
    StandardRecord :=
  let sr : StandardRecord :=
    { sr with common := { sr.common with ixn := { sr.common.ixn with ndlp := Inxns.length } } }
  Inxns.foldl
    (fun sr inx =>
      { sr with common := { sr.common with
          ixn := { sr.common.ixn with dlp := sr.common.ixn.dlp ++ [mkInteraction inx] } } })
    sr

/-- Lines 132-139 of `FillTracks`: the track built from a row; `pow(x, 2)` is `x * x`. -/
def mkTrack (ops : FloatOps) (part : dlp.Particle) : SRTrack :=
  { Evis := some part.depositions_sum
    start := SRVector3D.ofArray part.start_point
    end_ := SRVector3D.ofArray part.end_point
    dir := SRVector3D.ofArray part.start_dir
    enddir := SRVector3D.ofArray part.end_dir
    len_cm := some (ops.sqrt
      ((part.start_point.c0 - part.end_point.c0) * (part.start_point.c0 - part.end_point.c0)
        + (part.start_point.c1 - part.end_point.c1) * (part.start_point.c1 - part.end_point.c1)
        + (part.start_point.c2 - part.end_point.c2) * (part.start_point.c2 - part.end_point.c2))) }

/-- The body of the loop of `FillTracks` (lines 127-150) for one row.  The
position is the one `std::find_if` returns on `sr.common.ixn.dlp`; `end()`
aborts; the track is pushed to `sr.nd.lar.dlp[position].tracks`. -/
def FillTracks.step (ops : FloatOps) (sr : StandardRecord) (part : dlp.Particle) :
    Except Err StandardRecord :=
  if part.semantic_type ≠ .kTrack then .ok sr
  else
    let track := mkTrack ops part
    match find_if (fun ixn => decide (ixn.id = part.interaction_id)) sr.common.ixn.dlp with
    | none => .error .DanglingReference
    | some k =>
      match sr.nd.lar.dlp[k]? with
      | none => .error .Undefined
      | some e => .ok (sr.setNDLArDlp (sr.nd.lar.dlp.set k { e with tracks := e.tracks ++ [track] }))

/-- `MLNDLArRecoBranchFiller::FillTracks(particles, sr)`: `sr.nd.lar.dlp` is
resized to the size of `sr.common.ixn.dlp`, then the rows are walked in order. -/
def FillTracks (ops : FloatOps) (particles : List dlp.Particle) (sr : StandardRecord) :
    Except Err StandardRecord :=
  forEach (FillTracks.step ops)
    (sr.setNDLArDlp (resize sr.nd.lar.dlp sr.common.ixn.dlp.length {})) particles

/-- Lines 163-167 of `FillShowers`: the shower built from a row. -/
def mkShower (part : dlp.Particle) : SRShower :=
  { Evis := some part.depositions_sum
    start := SRVector3D.ofArray part.start_point
    direction := SRVector3D.ofArray part.start_dir }

/-- Lines 170-171 of `FillShowers`: when the index is not below the size, the
vector is resized to `idx + 1`. -/
def growTo (l : List SRNDLArInt) (idx : Nat) : List SRNDLArInt :=
  if idx ≥ l.length then resize l (idx + 1) {} else l

/-- The body of the loop of `FillShowers` (lines 160-172) for one row.  The
interaction id of the row is the index into `sr.nd.lar.dlp`; when it is not
below the size the vector is resized to `id + 1`.  A negative id, converted to
the unsigned index type, is beyond every vector. -/
def FillShowers.step (sr : StandardRecord) (part : dlp.Particle) : Except Err StandardRecord :=
  if part.semantic_type ≠ .kShower then .ok sr
  else
    let shower := mkShower part
    if part.interaction_id < 0 then .error .Undefined
    else
      let idx := part.interaction_id.toNat
      let dlp := growTo sr.nd.lar.dlp idx
      match dlp[idx]? with
      | none => .error .Undefined
      | some e => .ok (sr.setNDLArDlp (dlp.set idx { e with showers := e.showers ++ [shower] }))

/-- `MLNDLArRecoBranchFiller::FillShowers(particles, sr)`. -/
def FillShowers (particles : List dlp.Particle) (sr : StandardRecord) :
    Except Err StandardRecord :=
  forEach FillShowers.step sr particles

/-- Lines 62-69 of the reconstruction filler's `FillTruth`: the truth interaction
built from a row. -/
def mkTrueInteraction (trueInx : dlp.TrueInteraction) : SRTrueInteraction :=
  { vtx := SRVector3D.ofArray trueInx.vertex
    iscc := if trueInx.nu_current_type = 0 then false else true
    E := some trueInx.nu_energy_init
    nprim := trueInx.num_primaries }

/-- Lines 78-89 of `FillTruth`: the truth particle built from a particle row for
the primary slot whose id is `partId = trueInx.particle_ids[i]`. -/
def mkTrueParticle (truePart : dlp.TrueParticle) (partId : Int) : SRTrueParticle :=
  { interaction_id := truePart.interaction_id
    start_pos := SRVector3D.ofArray truePart.start_point
    end_pos := SRVector3D.ofArray truePart.end_point
    p := { E := some truePart.depositions_sum
           px := some truePart.momentum.c0
           py := some truePart.momentum.c1
           pz := some truePart.momentum.c2 }
    ancestor_id := { ixn := truePart.interaction_id, type := .kPrimary, part := partId } }

/-- The innermost body of `FillTruth` (lines 76-91) for the slot `i` and one
particle row: a primary row is pushed to `sr.mc.nu[evtIdx].prim`.  Reading
`particle_ids[i]` or `sr.mc.nu[evtIdx]` outside the bounds is undefined. -/
def FillTruth.partStep (evtIdx : Nat) (trueInx : dlp.TrueInteraction) (i : Nat)
    (sr : StandardRecord) (truePart : dlp.TrueParticle) : Except Err StandardRecord :=
  if truePart.is_primary then
    match trueInx.particle_ids[i]? with
    | none => .error .Undefined
    | some partId =>
      match sr.mc.nu[evtIdx]? with
      | none => .error .Undefined
      | some e =>
        .ok (sr.setNu (sr.mc.nu.set evtIdx
          { e with prim := e.prim ++ [mkTrueParticle truePart partId] }))
  else .ok sr

/-- The body of the outer loop of `FillTruth` (lines 62-93) for one interaction
row: the interaction is pushed to `sr.mc.nu`, then for every `i` below
`num_primaries` all particle rows are walked. -/
def FillTruth.inxStep (evtIdx : Nat) (trueParticles : List dlp.TrueParticle)
    (sr : StandardRecord) (trueInx : dlp.TrueInteraction) : Except Err StandardRecord :=
  forEach
    (fun sr i => forEach (FillTruth.partStep evtIdx trueInx i) sr trueParticles)
    (sr.setNu (sr.mc.nu ++ [mkTrueInteraction trueInx]))
    (List.range trueInx.num_primaries.toNat)

/-- `MLNDLArRecoBranchFiller::FillTruth(evtIdx, trueParticles, trueInxns, sr)`:
`sr.mc.nu` is resized to the row count, then the interaction rows are walked. -/
def FillTruth (evtIdx : Nat) (trueParticles : List dlp.TrueParticle)
    (trueInxns : List dlp.TrueInteraction) (sr : StandardRecord) : Except Err StandardRecord :=
  forEach (FillTruth.inxStep evtIdx trueParticles)
    (sr.setNu (resize sr.mc.nu trueInxns.length {})) trueInxns

/-- Lines 41-42 of `_FillRecoBranches`: `FillTracks` then `FillShowers` on the same
particle rows. -/
def FillTracksThenShowers (ops : FloatOps) (particles : List dlp.Particle)
    (sr : StandardRecord) : Except Err StandardRecord :=
  match FillTracks ops particles sr with
  | .error e => .error e
  | .ok sr1 => FillShowers particles sr1

/-! ## Invariants and sample inputs -/

/-- Id uniqueness in the truth branch: no two interactions share an id, and inside
every interaction neither `prim` nor `sec` holds two particles with one `G4ID`. -/
def UniqueIds (sr : StandardRecord) : Prop :=
  (sr.mc.nu.map (fun ixn => ixn.id)).Nodup ∧
  ∀ ixn ∈ sr.mc.nu,
    (ixn.prim.map (fun p => p.G4ID)).Nodup ∧ (ixn.sec.map (fun p => p.G4ID)).Nodup

instance (sr : StandardRecord) : Decidable (UniqueIds sr) := by
  unfold UniqueIds
  infer_instance

/-- A generator row with the given id and an empty particle stack. -/
def rowWithId (i : Int) : NtpMCEventRecord := { ievent := i }

/-- Three generator rows with ids 10, 20, 30; the row with id 10 was read last. -/
def stream3 : GTree :=
  { rows := [rowWithId 10, rowWithId 20, rowWithId 30], fReadEntry := 0 }

/-- A generator row whose stack holds a stable-final-state proton followed by a
neutron marked hadron-in-the-nucleus. -/
def rowProtonNeutron : NtpMCEventRecord :=
  { ievent := 1
    particles := [{ Status := .kIStStableFinalState, Pdg := 2212 },
                  { Status := .kIStHadronInTheNucleus, Pdg := 2112 }] }

/-- A generator row with zero probe energy and zero energy transfer
(`q0 = 0`, `E = 0`) and a non-zero probe momentum. -/
def rowZeroEnergy : NtpMCEventRecord :=
  { ievent := 1, ProbeP4Lab := { x := 0, y := 0, z := 1, t := 0 }, ProbeE := 0 }

/-- The track list at position `j` of `sr.nd.lar.dlp`, if the position exists. -/
def tracksAt (sr : StandardRecord) (j : Nat) : Option (List SRTrack) :=
  (sr.nd.lar.dlp[j]?).map (fun e => e.tracks)

/-- The shower list at position `j` of `sr.nd.lar.dlp`, if the position exists. -/
def showersAt (sr : StandardRecord) (j : Nat) : Option (List SRShower) :=
  (sr.nd.lar.dlp[j]?).map (fun e => e.showers)

/-- The tracks, in row order, of the Track-typed rows whose interaction id is
first found at position `j` of the interaction sequence `ixns`. -/
def tracksFor (ops : FloatOps) (ixns : List SRInteraction) (j : Nat)
    (particles : List dlp.Particle) : List SRTrack :=
  (particles.filter (fun p =>
    decide (p.semantic_type = .kTrack) &&
      decide (find_if (fun ixn => decide (ixn.id = p.interaction_id)) ixns = some j))).map
    (mkTrack ops)

/-- The record with one reconstructed interaction, of id 5, at position 0, as
`FillInteractions` leaves it on a fresh record. -/
def recoId5 : StandardRecord := FillInteractions 0 [{ id := 5 }] {}

/-- A Track-typed particle row of interaction 5. -/
def trackRow5 : dlp.Particle := { interaction_id := 5, semantic_type := .kTrack }

/-- A Shower-typed particle row of interaction 5. -/
def showerRow5 : dlp.Particle := { interaction_id := 5, semantic_type := .kShower }

/-- A generator tree whose single row, of id 1, holds a stable-final-state
proton and a neutron marked hadron-in-the-nucleus; the row was read last. -/
def streamProtonNeutron : GTree := { rows := [rowProtonNeutron], fReadEntry := 0 }

/-- A truth interaction row of id 7 with vertex (1, 2, 3), charged current,
energy 2 and one primary, of particle id 4. -/
def truthRow7 : dlp.TrueInteraction :=
  { id := 7, vertex := { c0 := 1, c1 := 2, c2 := 3 }, nu_current_type := 1,
    nu_energy_init := 2, num_primaries := 1, particle_ids := [4] }

/-- A primary truth particle row of interaction 7. -/
def truePrimary7 : dlp.TrueParticle := { is_primary := true, interaction_id := 7 }

/-- The record with two reconstructed interactions, of ids 5 and 6, as
`FillInteractions` leaves it on a fresh record. -/
def recoIds56 : StandardRecord := FillInteractions 0 [{ id := 5 }, { id := 6 }] {}

/-- A Shower-typed particle row of interaction 1. -/
def showerRow1 : dlp.Particle := { interaction_id := 1, semantic_type := .kShower }

/-- A Track-typed particle row of interaction 1. -/
def trackRow1 : dlp.Particle := { interaction_id := 1, semantic_type := .kTrack }

/-- The number of tracks held by all entries of a per-interaction container. -/
def totalTracks (l : List SRNDLArInt) : Nat := (l.map (fun e => e.tracks.length)).sum

/-- The number of showers held by all entries of a per-interaction container. -/
def totalShowers (l : List SRNDLArInt) : Nat := (l.map (fun e => e.showers.length)).sum

/-- The rows whose semantic type is Track or Shower. -/
def trackOrShower (p : dlp.Particle) : Bool :=
  decide (p.semantic_type = .kTrack) || decide (p.semantic_type = .kShower)

/-- Particle rows of four semantic types: a track and a shower of interaction 0,
a Michel electron and a delta ray. -/
def mixedRows : List dlp.Particle :=
  [{ interaction_id := 0, semantic_type := .kTrack },
   { interaction_id := 0, semantic_type := .kMichel },
   { interaction_id := 0, semantic_type := .kShower },
   { interaction_id := 7, semantic_type := .kDelta }]

/-- The record with one reconstructed interaction, of id 0, at position 0. -/
def recoId0 : StandardRecord := FillInteractions 0 [{ id := 0 }] {}

/-- Growth of the truth collection: no fewer entries, and every entry that was
there is still at its position with its particle lists extended at the end. -/
def GrowsTruth (a b : List SRTrueInteraction) : Prop :=
  a.length ≤ b.length ∧
  ∀ (i : Nat) (x : SRTrueInteraction), a[i]? = some x →
    ∃ y, b[i]? = some y ∧ x.prim <+: y.prim ∧ x.sec <+: y.sec ∧ x.prefsi <+: y.prefsi

/-- Growth of the per-interaction containers: no fewer entries, and every entry
that was there is still at its position with its track and shower lists extended
at the end. -/
def GrowsObjects (a b : List SRNDLArInt) : Prop :=
  a.length ≤ b.length ∧
  ∀ (i : Nat) (x : SRNDLArInt), a[i]? = some x →
    ∃ y, b[i]? = some y ∧ x.tracks <+: y.tracks ∧ x.showers <+: y.showers

/-- Growth of the destination record from `sr` to `sr'`: the truth collection
and the per-interaction containers grow, and the reconstructed interactions of
`sr` are a prefix of those of `sr'`. -/
def Grows (sr sr' : StandardRecord) : Prop :=
  GrowsTruth sr.mc.nu sr'.mc.nu ∧
  sr.common.ixn.dlp <+: sr'.common.ixn.dlp ∧
  GrowsObjects sr.nd.lar.dlp sr'.nd.lar.dlp

/-- A Shower-typed particle row of interaction 0. -/
def showerRow0 : dlp.Particle := { interaction_id := 0, semantic_type := .kShower }

/-! ## Properties of `find_if` -/

theorem find_if_eq_none {α : Type} (p : α → Bool) (l : List α) :
    find_if p l = none ↔ ∀ a ∈ l, p a = false := by
  induction l with
  | nil => simp [find_if]
  | cons a as ih =>
    by_cases h : p a = true
    · simp [find_if, h]
    · simp [find_if, h, ih]

theorem find_if_lt {α : Type} (p : α → Bool) (l : List α) (i : Nat)
    (h : find_if p l = some i) : i < l.length := by
  induction l generalizing i with
  | nil => simp [find_if] at h
  | cons a as ih =>
    by_cases hp : p a = true
    · simp [find_if, hp] at h
      subst h
      simp
    · simp [find_if, hp] at h
      obtain ⟨j, hj, rfl⟩ := h
      have := ih j hj
      simp
      omega

theorem find_if_get {α : Type} (p : α → Bool) (l : List α) (i : Nat)
    (h : find_if p l = some i) : ∃ a, l[i]? = some a ∧ p a = true := by
  induction l generalizing i with
  | nil => simp [find_if] at h
  | cons a as ih =>
    by_cases hp : p a = true
    · simp [find_if, hp] at h
      subst h
      exact ⟨a, by simp, hp⟩
    · simp [find_if, hp] at h
      obtain ⟨j, hj, rfl⟩ := h
      obtain ⟨b, hb, hpb⟩ := ih j hj
      exact ⟨b, by simpa using hb, hpb⟩

theorem find_if_first {α : Type} (p : α → Bool) (l : List α) (i : Nat)
    (h : find_if p l = some i) : ∀ j, j < i → ∀ b, l[j]? = some b → p b = false := by
  induction l generalizing i with
  | nil => simp [find_if] at h
  | cons a as ih =>
    by_cases hp : p a = true
    · simp [find_if, hp] at h
      subst h
      intro j hj
      omega
    · simp [find_if, hp] at h
      obtain ⟨k, hk, rfl⟩ := h
      intro j hj b hb
      cases j with
      | zero =>
        simp at hb
        subst hb
        simpa using hp
      | succ j =>
        simp at hb
        exact ih k hk j (by omega) b hb

theorem find_if_append_last {α : Type} (p : α → Bool) (l : List α) (a : α)
    (h : find_if p l = none) (ha : p a = true) : find_if p (l ++ [a]) = some l.length := by
  induction l with
  | nil => simp [find_if, ha]
  | cons b bs ih =>
    by_cases hp : p b = true
    · simp [find_if, hp] at h
    · simp [find_if, hp] at h
      simp [find_if, hp, ih h]

theorem find_if_is_some {α : Type} (p : α → Bool) (l : List α) (a : α)
    (ha : a ∈ l) (hp : p a = true) : ∃ i, find_if p l = some i := by
  cases h : find_if p l with
  | some i => exact ⟨i, rfl⟩
  | none =>
    have := (find_if_eq_none p l).1 h a ha
    simp [hp] at this

/-! ## Properties of the converter -/

theorem countSpecies_frame (nu : SRTrueInteraction) (pdg : Int) :
    (countSpecies nu pdg).prim = nu.prim ∧ (countSpecies nu pdg).prefsi = nu.prefsi ∧
    (countSpecies nu pdg).sec = nu.sec ∧ (countSpecies nu pdg).id = nu.id ∧
    (countSpecies nu pdg).time = nu.time ∧ (countSpecies nu pdg).nprim = nu.nprim ∧
    (countSpecies nu pdg).nsec = nu.nsec := by
  unfold countSpecies
  split_ifs <;> simp

theorem foldl_invariant {σ α : Type} (P : σ → Prop) (f : σ → α → σ)
    (hstep : ∀ s a, P s → P (f s a)) (l : List α) (s : σ) (h : P s) : P (l.foldl f s) := by
  induction l generalizing s with
  | nil => simpa using h
  | cons a as ih => exact ih (f s a) (hstep s a h)

theorem particleStep_frame (s : SRTrueInteraction × Int) (p : GHepParticle) :
    (particleStep s p).1.id = s.1.id ∧ (particleStep s p).1.sec = s.1.sec ∧
    (particleStep s p).1.time = s.1.time ∧ (particleStep s p).1.nprim = s.1.nprim ∧
    (particleStep s p).1.nsec = s.1.nsec := by
  unfold particleStep
  split_ifs <;> simp [countSpecies_frame]

theorem particleLoop_frame (nu : SRTrueInteraction) (stack : List GHepParticle) :
    (particleLoop nu stack).1.id = nu.id ∧ (particleLoop nu stack).1.sec = nu.sec ∧
    (particleLoop nu stack).1.time = nu.time ∧ (particleLoop nu stack).1.nprim = nu.nprim ∧
    (particleLoop nu stack).1.nsec = nu.nsec := by
  unfold particleLoop
  refine foldl_invariant
    (fun s => s.1.id = nu.id ∧ s.1.sec = nu.sec ∧ s.1.time = nu.time ∧ s.1.nprim = nu.nprim ∧
      s.1.nsec = nu.nsec) particleStep ?_ stack (nu, 0) (by simp)
  intro s a hs
  have := particleStep_frame s a
  simp only [this, hs, and_self]

theorem particleStep_seq (s : SRTrueInteraction × Int) (p : GHepParticle)
    (h : s.2 = s.1.prim.length ∧
      s.1.prim.map (fun x => x.G4ID) = (List.range s.1.prim.length).map Int.ofNat) :
    (particleStep s p).2 = (particleStep s p).1.prim.length ∧
      (particleStep s p).1.prim.map (fun x => x.G4ID)
        = (List.range (particleStep s p).1.prim.length).map Int.ofNat := by
  obtain ⟨h1, h2⟩ := h
  unfold particleStep
  split_ifs
  · exact ⟨h1, h2⟩
  · simp [countSpecies_frame, h1, h2, List.range_succ]
  · exact ⟨h1, h2⟩

theorem particleLoop_seq (nu : SRTrueInteraction) (stack : List GHepParticle)
    (h : nu.prim = []) :
    (particleLoop nu stack).2 = (particleLoop nu stack).1.prim.length ∧
      (particleLoop nu stack).1.prim.map (fun x => x.G4ID)
        = (List.range (particleLoop nu stack).1.prim.length).map Int.ofNat := by
  unfold particleLoop
  exact foldl_invariant
    (fun s => s.2 = s.1.prim.length ∧
      s.1.prim.map (fun x => x.G4ID) = (List.range s.1.prim.length).map Int.ofNat)
    particleStep particleStep_seq stack (nu, 0) (by simp [h])

theorem fillHeader_ok (ops : FloatOps) (nu hdr : SRTrueInteraction) (gEvt : NtpMCEventRecord)
    (h : fillHeader ops nu gEvt = .ok hdr) :
    hdr.id = gEvt.ievent ∧ hdr.prim = nu.prim ∧ hdr.prefsi = nu.prefsi ∧ hdr.sec = nu.sec ∧
    hdr.nprim = nu.nprim ∧ hdr.nsec = nu.nsec ∧
    hdr.nproton = nu.nproton ∧ hdr.nneutron = nu.nneutron ∧ hdr.npip = nu.npip ∧
    hdr.npim = nu.npim ∧ hdr.npi0 = nu.npi0 ∧
    hdr.bjorkenX = some (ops.div (-(gEvt.ProbeP4Lab.sub {}).Mag2)
      (2 * Mnuc * (gEvt.ProbeP4Lab.sub {}).E)) ∧
    hdr.inelasticity = some (ops.div (gEvt.ProbeP4Lab.sub {}).E gEvt.ProbeE) := by
  unfold fillHeader at h
  cases hm : GENIE2CAF gEvt.ScatteringTypeId with
  | error e => simp [hm] at h
  | ok mode =>
    simp only [hm] at h
    injection h with h
    subst h
    simp

theorem FillInteraction_ok (ops : FloatOps) (nu r : SRTrueInteraction) (gEvt : NtpMCEventRecord)
    (h : FillInteraction ops nu gEvt = .ok r) :
    ∃ hdr, fillHeader ops nu gEvt = .ok hdr ∧
      r = { (particleLoop hdr gEvt.particles).1 with xsec_cvwgt := some 1 } := by
  unfold FillInteraction at h
  cases hh : fillHeader ops nu gEvt with
  | error e => simp [hh] at h
  | ok hdr =>
    simp only [hh] at h
    injection h with h
    exact ⟨hdr, rfl, h.symm⟩

theorem FillInteraction_id (ops : FloatOps) (nu r : SRTrueInteraction) (gEvt : NtpMCEventRecord)
    (h : FillInteraction ops nu gEvt = .ok r) : r.id = gEvt.ievent := by
  obtain ⟨hdr, hh, rfl⟩ := FillInteraction_ok ops nu r gEvt h
  simp [(particleLoop_frame hdr gEvt.particles).1, (fillHeader_ok ops nu hdr gEvt hh).1]

theorem countSpecies_kin (nu : SRTrueInteraction) (pdg : Int) :
    (countSpecies nu pdg).Q2 = nu.Q2 ∧ (countSpecies nu pdg).q0 = nu.q0 ∧
    (countSpecies nu pdg).E = nu.E ∧ (countSpecies nu pdg).bjorkenX = nu.bjorkenX ∧
    (countSpecies nu pdg).inelasticity = nu.inelasticity := by
  unfold countSpecies
  split_ifs <;> simp

theorem particleStep_kin (s : SRTrueInteraction × Int) (p : GHepParticle) :
    (particleStep s p).1.Q2 = s.1.Q2 ∧ (particleStep s p).1.q0 = s.1.q0 ∧
    (particleStep s p).1.E = s.1.E ∧ (particleStep s p).1.bjorkenX = s.1.bjorkenX ∧
    (particleStep s p).1.inelasticity = s.1.inelasticity := by
  unfold particleStep
  split_ifs <;> simp [countSpecies_kin]

theorem particleLoop_kin (nu : SRTrueInteraction) (stack : List GHepParticle) :
    (particleLoop nu stack).1.Q2 = nu.Q2 ∧ (particleLoop nu stack).1.q0 = nu.q0 ∧
    (particleLoop nu stack).1.E = nu.E ∧ (particleLoop nu stack).1.bjorkenX = nu.bjorkenX ∧
    (particleLoop nu stack).1.inelasticity = nu.inelasticity := by
  unfold particleLoop
  refine foldl_invariant
    (fun s => s.1.Q2 = nu.Q2 ∧ s.1.q0 = nu.q0 ∧ s.1.E = nu.E ∧ s.1.bjorkenX = nu.bjorkenX ∧
      s.1.inelasticity = nu.inelasticity) particleStep ?_ stack (nu, 0) (by simp)
  intro s a hs
  have := particleStep_kin s a
  simp only [this, hs, and_self]

theorem fillHeader_kin (ops : FloatOps) (nu hdr : SRTrueInteraction) (gEvt : NtpMCEventRecord)
    (h : fillHeader ops nu gEvt = .ok hdr) :
    hdr.Q2 = some (-(gEvt.ProbeP4Lab.sub {}).Mag2) ∧
    hdr.q0 = some (gEvt.ProbeP4Lab.sub {}).E ∧
    hdr.E = some gEvt.ProbeE := by
  unfold fillHeader at h
  cases hm : GENIE2CAF gEvt.ScatteringTypeId with
  | error e => simp [hm] at h
  | ok mode =>
    simp only [hm] at h
    injection h with h
    subst h
    simp

/-- The particle loop, started in any state, appends to `prim` the stack entries
marked hadron-in-the-nucleus and to `prefsi` the entries marked
stable-final-state, each in stack order (shown on the particle codes). -/
theorem foldl_particleStep_pdg (stack : List GHepParticle) (s : SRTrueInteraction × Int) :
    (stack.foldl particleStep s).1.prim.map (fun x => x.pdg)
      = s.1.prim.map (fun x => x.pdg)
        ++ (stack.filter (fun p => decide (p.Status = .kIStHadronInTheNucleus))).map
            (fun p => p.Pdg) ∧
    (stack.foldl particleStep s).1.prefsi.map (fun x => x.pdg)
      = s.1.prefsi.map (fun x => x.pdg)
        ++ (stack.filter (fun p => decide (p.Status = .kIStStableFinalState))).map
            (fun p => p.Pdg) := by
  induction stack generalizing s with
  | nil => simp
  | cons p ps ih =>
    rw [List.foldl_cons]
    obtain ⟨ih1, ih2⟩ := ih (particleStep s p)
    rw [ih1, ih2]
    by_cases h1 : p.Status = .kIStStableFinalState
    · simp [particleStep, h1, List.filter_cons]
    · by_cases h2 : p.Status = .kIStHadronInTheNucleus
      · simp [particleStep, h2, List.filter_cons, countSpecies_frame]
      · simp [particleStep, h1, h2, List.filter_cons]

/-! ## Properties of the generator tree and of the scan -/

theorem GetEntry_rows (t : GTree) (entry : Int) : (t.GetEntry entry).rows = t.rows := by
  unfold GTree.GetEntry
  split_ifs <;> rfl

theorem fGEvt_mem (t : GTree) (gEvt : NtpMCEventRecord) (h : t.fGEvt = some gEvt) :
    0 ≤ t.fReadEntry ∧ t.rows[t.fReadEntry.toNat]? = some gEvt := by
  unfold GTree.fGEvt at h
  split_ifs at h with hneg
  exact ⟨by omega, h⟩

theorem scanLoop_rows (ixnID : Int) (fuel : Nat) (t t' : GTree) (evtIdx : Int)
    (h : scanLoop ixnID fuel t evtIdx = .ok t') : t'.rows = t.rows := by
  induction fuel generalizing t evtIdx with
  | zero =>
    rw [scanLoop] at h
    by_cases hN : t.GetEntries = 0
    · simp [hN] at h
    · by_cases hm : Int.tmod evtIdx t.GetEntries = t.GetReadEvent
      · simp [hN, hm] at h
        rw [h]
      · simp [hN, hm] at h
  | succ n ih =>
    rw [scanLoop] at h
    by_cases hN : t.GetEntries = 0
    · simp [hN] at h
    · by_cases hm : Int.tmod evtIdx t.GetEntries = t.GetReadEvent
      · simp [hN, hm] at h
        rw [h]
      · simp only [hN, hm, if_false] at h
        cases hg : (t.GetEntry (Int.tmod evtIdx t.GetEntries)).fGEvt with
        | none => simp [hg] at h
        | some g =>
          simp only [hg] at h
          by_cases hid : g.ievent = ixnID
          · simp [hid] at h
            rw [← h, GetEntry_rows]
          · rw [if_neg hid] at h
            by_cases hov : evtIdx + 1 ≥ 2 ^ 31
            · rw [if_pos hov] at h
              exact absurd h (by simp)
            · rw [if_neg hov] at h
              rw [ih _ _ h, GetEntry_rows]

/-- With the loop index equal to a cursor inside the tree, the condition of the
`for` loop is false at once: no iteration runs, whatever the fuel. -/
theorem scanLoop_at_cursor (ixnID : Int) (fuel : Nat) (t : GTree)
    (h0 : 0 ≤ t.fReadEntry) (h1 : t.fReadEntry < t.GetEntries) :
    scanLoop ixnID fuel t t.GetReadEvent = .ok t := by
  have hne : t.GetEntries ≠ 0 := by omega
  have hmod : Int.tmod t.GetReadEvent t.GetEntries = t.GetReadEvent := by
    unfold GTree.GetReadEvent
    exact Int.tmod_eq_of_lt h0 h1
  cases fuel <;> simp [scanLoop, hne, hmod]

/-! ## Properties of `GetTrueInteraction` -/

theorem GetTrueInteraction_found (ops : FloatOps) (fuel : Nat) (sr : StandardRecord) (t : GTree)
    (ixnID : Int) (createNew : Bool) (i : Nat)
    (h : find_if (fun ixn => decide (ixn.id = ixnID)) sr.mc.nu = some i) :
    GetTrueInteraction ops fuel sr t ixnID createNew = (.ok i, sr, t) := by
  simp [GetTrueInteraction, h]

theorem GetTrueInteraction_absent_nocreate (ops : FloatOps) (fuel : Nat) (sr : StandardRecord)
    (t : GTree) (ixnID : Int)
    (h : find_if (fun ixn => decide (ixn.id = ixnID)) sr.mc.nu = none) :
    GetTrueInteraction ops fuel sr t ixnID false = (.error .NotFound, sr, t) := by
  simp [GetTrueInteraction, h]

/-- What a successful creating call did, when the id was absent from the record. -/
theorem GetTrueInteraction_create_ok (ops : FloatOps) (fuel : Nat) (sr sr' : StandardRecord)
    (t t' : GTree) (ixnID : Int) (i : Nat)
    (habs : find_if (fun ixn => decide (ixn.id = ixnID)) sr.mc.nu = none)
    (h : GetTrueInteraction ops fuel sr t ixnID true = (.ok i, sr', t')) :
    ∃ gEvt ixn, t'.fGEvt = some gEvt ∧ gEvt.ievent = ixnID ∧
      FillInteraction ops {} gEvt = .ok ixn ∧ i = sr.mc.nu.length ∧
      sr' = { sr with mc := { sr.mc with nu := sr.mc.nu ++ [ixn], nnu := sr.mc.nnu + 1 } } ∧
      t'.rows = t.rows := by
  simp only [GetTrueInteraction, habs, Bool.not_true, Bool.false_eq_true, if_false] at h
  cases hs : scanLoop ixnID fuel (if t.GetReadEvent < 0 then t.GetEntry 0 else t)
      (if t.GetReadEvent < 0 then t.GetEntry 0 else t).GetReadEvent with
  | error e => simp [hs] at h
  | ok t1 =>
    simp only [hs] at h
    cases hg : t1.fGEvt with
    | none => simp [hg] at h
    | some gEvt =>
      simp only [hg] at h
      by_cases hid : gEvt.ievent = ixnID
      · simp only [hid, ne_eq, not_true_eq_false, if_false] at h
        cases hf : FillInteraction ops {} gEvt with
        | error e => simp [hf] at h
        | ok ixn =>
          simp only [hf, Prod.mk.injEq, Except.ok.injEq] at h
          obtain ⟨hi, hsr, ht⟩ := h
          refine ⟨gEvt, ixn, ?_, hid, hf, hi.symm, hsr.symm, ?_⟩
          · rw [← ht, hg]
          · rw [← ht, scanLoop_rows _ _ _ _ _ hs]
            split_ifs
            · exact GetEntry_rows t 0
            · rfl
      · simp [hid] at h

theorem GetTrueInteraction_ok_get (ops : FloatOps) (fuel : Nat) (sr sr' : StandardRecord)
    (t t' : GTree) (ixnID : Int) (createNew : Bool) (i : Nat)
    (h : GetTrueInteraction ops fuel sr t ixnID createNew = (.ok i, sr', t')) :
    ∃ ixn, sr'.mc.nu[i]? = some ixn ∧ ixn.id = ixnID := by
  cases hfind : find_if (fun ixn => decide (ixn.id = ixnID)) sr.mc.nu with
  | some i0 =>
    rw [GetTrueInteraction_found ops fuel sr t ixnID createNew i0 hfind] at h
    simp only [Prod.mk.injEq, Except.ok.injEq] at h
    obtain ⟨rfl, rfl, rfl⟩ := h
    obtain ⟨a, ha, hpa⟩ := find_if_get _ _ _ hfind
    exact ⟨a, ha, by simpa using hpa⟩
  | none =>
    cases createNew with
    | false =>
      rw [GetTrueInteraction_absent_nocreate ops fuel sr t ixnID hfind] at h
      simp at h
    | true =>
      obtain ⟨gEvt, ixn, hg, hid, hfill, rfl, rfl, hrows⟩ :=
        GetTrueInteraction_create_ok ops fuel sr sr' t t' ixnID i hfind h
      refine ⟨ixn, by simp, ?_⟩
      rw [FillInteraction_id ops {} ixn gEvt hfill, hid]

/-- The conversion of a row into a fresh interaction leaves `sec` empty and gives
the elements of `prim` the ids `0, 1, 2, ...` in order. -/
theorem FillInteraction_fresh (ops : FloatOps) (r : SRTrueInteraction) (gEvt : NtpMCEventRecord)
    (h : FillInteraction ops {} gEvt = .ok r) :
    r.sec = [] ∧ r.prim.map (fun x => x.G4ID) = (List.range r.prim.length).map Int.ofNat := by
  obtain ⟨hdr, hh, rfl⟩ := FillInteraction_ok ops {} r gEvt h
  have hH := fillHeader_ok ops {} hdr gEvt hh
  have hprim : hdr.prim = [] := hH.2.1
  have hsec : hdr.sec = [] := hH.2.2.2.1
  refine ⟨?_, ?_⟩
  · simp [(particleLoop_frame hdr gEvt.particles).2.1, hsec]
  · exact (particleLoop_seq hdr gEvt.particles hprim).2

theorem set_self_of_getElem? {α : Type} (l : List α) (i : Nat) (a : α) (h : l[i]? = some a) :
    l.set i a = l := by
  apply List.ext_getElem?
  intro j
  rw [List.getElem?_set]
  split_ifs with hij hlt
  · subst hij
    exact h.symm
  · subst hij
    rw [List.getElem?_eq_none (by omega)]
  · rfl

theorem GetTrueInteraction_unique (ops : FloatOps) (fuel : Nat) (sr sr' : StandardRecord)
    (t t' : GTree) (ixnID : Int) (createNew : Bool) (i : Nat) (hU : UniqueIds sr)
    (h : GetTrueInteraction ops fuel sr t ixnID createNew = (.ok i, sr', t')) :
    UniqueIds sr' := by
  cases hfind : find_if (fun ixn => decide (ixn.id = ixnID)) sr.mc.nu with
  | some i0 =>
    rw [GetTrueInteraction_found ops fuel sr t ixnID createNew i0 hfind] at h
    simp only [Prod.mk.injEq, Except.ok.injEq] at h
    obtain ⟨-, rfl, -⟩ := h
    exact hU
  | none =>
    cases createNew with
    | false =>
      rw [GetTrueInteraction_absent_nocreate ops fuel sr t ixnID hfind] at h
      simp at h
    | true =>
      obtain ⟨gEvt, ixn, -, hid, hfill, -, rfl, -⟩ :=
        GetTrueInteraction_create_ok ops fuel sr sr' t t' ixnID i hfind h
      have hidx : ixn.id = ixnID := by rw [FillInteraction_id ops {} ixn gEvt hfill, hid]
      have habs : ∀ x ∈ sr.mc.nu, x.id ≠ ixnID := by
        have := (find_if_eq_none _ _).1 hfind
        simpa using this
      obtain ⟨hsec, hprim⟩ := FillInteraction_fresh ops ixn gEvt hfill
      obtain ⟨hU1, hU2⟩ := hU
      refine ⟨?_, ?_⟩
      · simp only [List.map_append, List.map_cons, List.map_nil]
        rw [List.nodup_append]
        refine ⟨hU1, List.nodup_singleton _, ?_⟩
        intro a ha hb
        simp only [List.mem_singleton] at hb
        rw [List.mem_map] at ha
        obtain ⟨x, hx, hxa⟩ := ha
        exact habs x hx (by rw [hxa, hb, hidx])
      · intro x hx
        simp only [List.mem_append, List.mem_singleton] at hx
        rcases hx with hx | rfl
        · exact hU2 x hx
        · rw [hprim, hsec]
          exact ⟨List.Nodup.map Int.ofNat_injective (List.nodup_range _), by simp⟩

theorem GetTrueParticle_unfold (ops : FloatOps) (fuel : Nat) (sr sr1 : StandardRecord)
    (t t1 : GTree) (ixnID G4ID : Int) (isPrimary createNew : Bool) (i : Nat)
    (ixn : SRTrueInteraction)
    (h1 : GetTrueInteraction ops fuel sr t ixnID createNew = (.ok i, sr1, t1))
    (h2 : sr1.mc.nu[i]? = some ixn) :
    GetTrueParticle ops fuel sr t ixnID G4ID isPrimary createNew =
      match find_if (fun part => decide (part.G4ID = G4ID)) (collection ixn isPrimary) with
      | some j => (.ok (i, j), sr1, t1)
      | none =>
        if !createNew then (.error .NotFound, sr1, t1)
        else (.ok (i, (collection ixn isPrimary).length),
          { sr1 with mc := { sr1.mc with
              nu := sr1.mc.nu.set i (appendStub ixn ixnID G4ID isPrimary) } }, t1) := by
  simp only [GetTrueParticle, h1, h2]

theorem GetTrueParticle_error (ops : FloatOps) (fuel : Nat) (sr sr1 : StandardRecord)
    (t t1 : GTree) (ixnID G4ID : Int) (isPrimary createNew : Bool) (e : Err)
    (h1 : GetTrueInteraction ops fuel sr t ixnID createNew = (.error e, sr1, t1)) :
    GetTrueParticle ops fuel sr t ixnID G4ID isPrimary createNew = (.error e, sr1, t1) := by
  simp only [GetTrueParticle, h1]

theorem appendStub_spec (ixn : SRTrueInteraction) (ixnID G4ID : Int) (isPrimary : Bool) :
    (appendStub ixn ixnID G4ID isPrimary).id = ixn.id ∧
    collection (appendStub ixn ixnID G4ID isPrimary) isPrimary
      = collection ixn isPrimary ++ [{ G4ID := G4ID, interaction_id := ixnID }] ∧
    counter (appendStub ixn ixnID G4ID isPrimary) isPrimary = counter ixn isPrimary + 1 ∧
    collection (appendStub ixn ixnID G4ID isPrimary) (!isPrimary)
      = collection ixn (!isPrimary) ∧
    counter (appendStub ixn ixnID G4ID isPrimary) (!isPrimary) = counter ixn (!isPrimary) := by
  cases isPrimary <;> simp [appendStub, collection, counter]

theorem appendStub_unique (ixn : SRTrueInteraction) (ixnID G4ID : Int) (isPrimary : Bool)
    (hU : (ixn.prim.map (fun p => p.G4ID)).Nodup ∧ (ixn.sec.map (fun p => p.G4ID)).Nodup)
    (hnew : ∀ p ∈ collection ixn isPrimary, p.G4ID ≠ G4ID) :
    ((appendStub ixn ixnID G4ID isPrimary).prim.map (fun p => p.G4ID)).Nodup ∧
    ((appendStub ixn ixnID G4ID isPrimary).sec.map (fun p => p.G4ID)).Nodup := by
  have key : ∀ l : List SRTrueParticle, (l.map (fun p => p.G4ID)).Nodup →
      (∀ p ∈ l, p.G4ID ≠ G4ID) →
      ((l ++ [({ G4ID := G4ID, interaction_id := ixnID } : SRTrueParticle)]).map
        (fun p => p.G4ID)).Nodup := by
    intro l hl hne
    simp only [List.map_append, List.map_cons, List.map_nil]
    rw [List.nodup_append]
    refine ⟨hl, List.nodup_singleton _, ?_⟩
    intro a ha hb
    simp only [List.mem_singleton] at hb
    rw [List.mem_map] at ha
    obtain ⟨x, hx, hxa⟩ := ha
    exact hne x hx (by rw [hxa, hb])
  cases isPrimary with
  | true => exact ⟨key ixn.prim hU.1 (by simpa [collection] using hnew), hU.2⟩
  | false => exact ⟨hU.1, key ixn.sec hU.2 (by simpa [collection] using hnew)⟩

theorem set_appendStub_unique (sr : StandardRecord) (i : Nat) (ixn : SRTrueInteraction)
    (ixnID G4ID : Int) (isPrimary : Bool) (hU : UniqueIds sr) (hi : sr.mc.nu[i]? = some ixn)
    (hnew : ∀ p ∈ collection ixn isPrimary, p.G4ID ≠ G4ID) :
    UniqueIds { sr with mc := { sr.mc with
      nu := sr.mc.nu.set i (appendStub ixn ixnID G4ID isPrimary) } } := by
  obtain ⟨hU1, hU2⟩ := hU
  have hmem : ixn ∈ sr.mc.nu := List.getElem?_mem hi
  refine ⟨?_, ?_⟩
  · have hid : (sr.mc.nu.map (fun x => x.id))[i]? = some ixn.id := by simp [hi]
    simp only [List.map_set, (appendStub_spec ixn ixnID G4ID isPrimary).1]
    rw [set_self_of_getElem? _ _ _ hid]
    exact hU1
  · intro x hx
    rcases List.mem_or_eq_of_mem_set hx with hx | rfl
    · exact hU2 x hx
    · exact appendStub_unique ixn ixnID G4ID isPrimary (hU2 ixn hmem) hnew

/-- From a cursor inside the tree, a creating call for an absent id looks at the
buffered row only: when that row has another id the call throws, whatever the
other rows hold. -/
theorem GetTrueInteraction_create_reads_buffer_only (ops : FloatOps) (fuel : Nat)
    (sr : StandardRecord) (t : GTree) (ixnID : Int) (gEvt : NtpMCEventRecord)
    (habs : find_if (fun ixn => decide (ixn.id = ixnID)) sr.mc.nu = none)
    (h0 : 0 ≤ t.fReadEntry) (h1 : t.fReadEntry < t.GetEntries)
    (hg : t.fGEvt = some gEvt) (hid : gEvt.ievent ≠ ixnID) :
    GetTrueInteraction ops fuel sr t ixnID true = (.error .UpstreamRecordMissing, sr, t) := by
  have hs := scanLoop_at_cursor ixnID fuel t h0 h1
  have hneg : ¬ t.GetReadEvent < 0 := by
    unfold GTree.GetReadEvent
    omega
  simp [GetTrueInteraction, habs, hneg, hs, hg, hid]

/-- C1: when `GetTrueInteraction(sr, id, createNew = true)` succeeds and leaves the
record `sr'` and the tree `t'`, then `GetTrueInteraction(sr', id, createNew = false)`
succeeds, refers to the same position of `sr'.mc.nu`, and leaves `sr'` and `t'`
(rows and read cursor) as they are. -/
theorem GetTrueInteraction_create_then_lookup (ops : FloatOps) (fuel fuel' : Nat)
    (sr sr' : StandardRecord) (t t' : GTree) (ixnID : Int) (i : Nat)
    (h : GetTrueInteraction ops fuel sr t ixnID true = (.ok i, sr', t')) :
    GetTrueInteraction ops fuel' sr' t' ixnID false = (.ok i, sr', t') := by
  cases hfind : find_if (fun ixn => decide (ixn.id = ixnID)) sr.mc.nu with
  | some i0 =>
    rw [GetTrueInteraction_found ops fuel sr t ixnID true i0 hfind] at h
    simp only [Prod.mk.injEq, Except.ok.injEq] at h
    obtain ⟨rfl, rfl, rfl⟩ := h
    exact GetTrueInteraction_found ops fuel' sr t ixnID false i0 hfind
  | none =>
    obtain ⟨gEvt, ixn, -, hid, hfill, rfl, rfl, -⟩ :=
      GetTrueInteraction_create_ok ops fuel sr sr' t t' ixnID i hfind h
    apply GetTrueInteraction_found
    apply find_if_append_last _ _ _ hfind
    simp [FillInteraction_id ops {} ixn gEvt hfill, hid]

/-- C1, on the three-row stream with an empty record and id 10: the creating call
succeeds at position 0 and the following lookup returns position 0 unchanged. -/
theorem GetTrueInteraction_create_then_lookup_witness :
    (GetTrueInteraction FloatOps.exact 0 {} stream3 10 true).1 = .ok 0 ∧
    GetTrueInteraction FloatOps.exact 0
        (GetTrueInteraction FloatOps.exact 0 {} stream3 10 true).2.1
        (GetTrueInteraction FloatOps.exact 0 {} stream3 10 true).2.2 10 false
      = (.ok 0, (GetTrueInteraction FloatOps.exact 0 {} stream3 10 true).2.1,
          (GetTrueInteraction FloatOps.exact 0 {} stream3 10 true).2.2) :=
  ⟨by decide,
    GetTrueInteraction_create_then_lookup FloatOps.exact 0 0 {} _ stream3 _ 10 0
      (Prod.ext (by decide) rfl)⟩

/-- C3: a successful `GetTrueInteraction` refers to an entry whose `id` is the
requested id; and when no entry of the input record had that id, the truth
collection of the result is the input collection followed by one new entry, the
position returned is that of the new entry, `nnu` grew by one, and the new entry
is `FillInteraction` of a fresh interaction on a row of the generator tree whose
`ievent` is the requested id. -/
theorem GetTrueInteraction_result (ops : FloatOps) (fuel : Nat) (sr sr' : StandardRecord)
    (t t' : GTree) (ixnID : Int) (createNew : Bool) (i : Nat)
    (h : GetTrueInteraction ops fuel sr t ixnID createNew = (.ok i, sr', t')) :
    (∃ ixn, sr'.mc.nu[i]? = some ixn ∧ ixn.id = ixnID) ∧
    ((∀ x ∈ sr.mc.nu, x.id ≠ ixnID) →
      createNew = true ∧
      ∃ (k : Nat) (gEvt : NtpMCEventRecord) (ixn : SRTrueInteraction),
        t.rows[k]? = some gEvt ∧ gEvt.ievent = ixnID ∧
        FillInteraction ops {} gEvt = .ok ixn ∧
        sr'.mc.nu = sr.mc.nu ++ [ixn] ∧ i = sr.mc.nu.length ∧
        sr'.mc.nnu = sr.mc.nnu + 1) := by
  cases hfind : find_if (fun ixn => decide (ixn.id = ixnID)) sr.mc.nu with
  | some i0 =>
    rw [GetTrueInteraction_found ops fuel sr t ixnID createNew i0 hfind] at h
    simp only [Prod.mk.injEq, Except.ok.injEq] at h
    obtain ⟨rfl, rfl, rfl⟩ := h
    obtain ⟨a, ha, hpa⟩ := find_if_get _ _ _ hfind
    refine ⟨⟨a, ha, by simpa using hpa⟩, ?_⟩
    intro habs
    have hmem : a ∈ sr.mc.nu := List.getElem?_mem ha
    exact absurd (by simpa using hpa) (habs a hmem)
  | none =>
    cases createNew with
    | false =>
      rw [GetTrueInteraction_absent_nocreate ops fuel sr t ixnID hfind] at h
      simp at h
    | true =>
      obtain ⟨gEvt, ixn, hg, hid, hfill, rfl, rfl, hrows⟩ :=
        GetTrueInteraction_create_ok ops fuel sr sr' t t' ixnID i hfind h
      refine ⟨⟨ixn, by simp, ?_⟩, ?_⟩
      · rw [FillInteraction_id ops {} ixn gEvt hfill, hid]
      · intro _
        refine ⟨rfl, t'.fReadEntry.toNat, gEvt, ixn, ?_, hid, hfill, rfl, rfl, rfl⟩
        rw [← hrows]
        exact (fGEvt_mem t' gEvt hg).2

/-- C3, on the three-row stream with an empty record and id 10: the call succeeds
at position 0, the entry there has id 10, and the collection of the result is the
single conversion of a row with id 10, with `nnu = 1`. -/
theorem GetTrueInteraction_result_witness :
    (GetTrueInteraction FloatOps.exact 0 {} stream3 10 true).1 = .ok 0 ∧
    (∃ ixn, (GetTrueInteraction FloatOps.exact 0 {} stream3 10 true).2.1.mc.nu[0]? = some ixn ∧
      ixn.id = 10) ∧
    (∃ (k : Nat) (gEvt : NtpMCEventRecord) (ixn : SRTrueInteraction),
      stream3.rows[k]? = some gEvt ∧ gEvt.ievent = 10 ∧
      FillInteraction FloatOps.exact {} gEvt = .ok ixn ∧
      (GetTrueInteraction FloatOps.exact 0 {} stream3 10 true).2.1.mc.nu = [ixn] ∧
      (GetTrueInteraction FloatOps.exact 0 {} stream3 10 true).2.1.mc.nnu = 1) := by
  have H := GetTrueInteraction_result FloatOps.exact 0 {}
    (GetTrueInteraction FloatOps.exact 0 {} stream3 10 true).2.1 stream3
    (GetTrueInteraction FloatOps.exact 0 {} stream3 10 true).2.2 10 true 0
    (Prod.ext (by decide) rfl)
  refine ⟨by decide, H.1, ?_⟩
  obtain ⟨-, k, gEvt, ixn, h1, h2, h3, h4, -, h6⟩ :=
    H.2 (fun x hx => absurd hx (List.not_mem_nil x))
  exact ⟨k, gEvt, ixn, h1, h2, h3, h4, h6⟩

/-- C2: on the stream with ids 10, 20, 30 and the read cursor on the row with id
10, a creating request for id 20 (carried by the row at position 1) does not
scan forward: the loop of lines 266-272 starts with its index on the cursor, so
its condition is false before the first iteration, and the call throws
"Could not locate GENIE event record" with record and cursor unchanged.  This
holds for every amount of fuel and every choice of the floating-point operations. -/
theorem GetTrueInteraction_scan_never_advances (ops : FloatOps) (fuel : Nat) :
    (∃ gEvt, stream3.rows[1]? = some gEvt ∧ gEvt.ievent = 20) ∧
    GetTrueInteraction ops fuel {} stream3 20 true
      = (.error .UpstreamRecordMissing, {}, stream3) := by
  refine ⟨⟨rowWithId 20, rfl, rfl⟩, ?_⟩
  have hs : scanLoop 20 fuel stream3 stream3.GetReadEvent = .ok stream3 :=
    scanLoop_at_cursor 20 fuel stream3 (by decide) (by decide)
  have h0 : ¬ stream3.GetReadEvent < 0 := by decide
  have hg : stream3.fGEvt = some (rowWithId 10) := by decide
  simp [GetTrueInteraction, find_if, h0, hs, hg, rowWithId]

/-- C4: with creation disabled both lookups leave the record and the tree as they
are, whatever the outcome, and they either succeed or throw NotFound.
`GetTrueInteraction` throws exactly when no entry of `sr.mc.nu` has the id;
`GetTrueParticle` throws exactly when no entry has the id or the chosen
collection (`prim` or `sec`) of the entry found by `std::find_if` has no particle
with the `G4ID`. -/
theorem lookup_without_creation (ops : FloatOps) (fuel : Nat) (sr : StandardRecord) (t : GTree)
    (ixnID G4ID : Int) (isPrimary : Bool) :
    ((GetTrueInteraction ops fuel sr t ixnID false).2 = (sr, t) ∧
      ((GetTrueInteraction ops fuel sr t ixnID false).1 = .error .NotFound ↔
        ∀ x ∈ sr.mc.nu, x.id ≠ ixnID) ∧
      ((GetTrueInteraction ops fuel sr t ixnID false).1 = .error .NotFound ∨
        ∃ i, (GetTrueInteraction ops fuel sr t ixnID false).1 = .ok i)) ∧
    ((GetTrueParticle ops fuel sr t ixnID G4ID isPrimary false).2 = (sr, t) ∧
      ((GetTrueParticle ops fuel sr t ixnID G4ID isPrimary false).1 = .error .NotFound ↔
        ((∀ x ∈ sr.mc.nu, x.id ≠ ixnID) ∨
          ∃ (i : Nat) (ixn : SRTrueInteraction),
            find_if (fun x => decide (x.id = ixnID)) sr.mc.nu = some i ∧
            sr.mc.nu[i]? = some ixn ∧ ∀ p ∈ collection ixn isPrimary, p.G4ID ≠ G4ID)) ∧
      ((GetTrueParticle ops fuel sr t ixnID G4ID isPrimary false).1 = .error .NotFound ∨
        ∃ ij, (GetTrueParticle ops fuel sr t ixnID G4ID isPrimary false).1 = .ok ij)) := by
  have habs_iff : find_if (fun x => decide (x.id = ixnID)) sr.mc.nu = none ↔
      ∀ x ∈ sr.mc.nu, x.id ≠ ixnID := by
    rw [find_if_eq_none]
    simp
  cases hfind : find_if (fun x => decide (x.id = ixnID)) sr.mc.nu with
  | none =>
    have habs := habs_iff.1 hfind
    have hI := GetTrueInteraction_absent_nocreate ops fuel sr t ixnID hfind
    refine ⟨?_, ?_⟩
    · rw [hI]
      exact ⟨rfl, ⟨fun _ => habs, fun _ => rfl⟩, Or.inl rfl⟩
    · simp only [GetTrueParticle, hI]
      exact ⟨trivial, ⟨fun _ => Or.inl habs, fun _ => trivial⟩, Or.inl trivial⟩
  | some i =>
    have hI := GetTrueInteraction_found ops fuel sr t ixnID false i hfind
    obtain ⟨a, ha, hpa⟩ := find_if_get _ _ _ hfind
    have hmem : a ∈ sr.mc.nu := List.getElem?_mem ha
    have hpres : ¬ ∀ x ∈ sr.mc.nu, x.id ≠ ixnID := fun hall =>
      hall a hmem (by simpa using hpa)
    refine ⟨?_, ?_⟩
    · rw [hI]
      refine ⟨rfl, ⟨fun h => ?_, fun h => absurd h hpres⟩, Or.inr ⟨i, rfl⟩⟩
      simp at h
    · simp only [GetTrueParticle, hI, ha]
      cases hp : find_if (fun part => decide (part.G4ID = G4ID)) (collection a isPrimary) with
      | none =>
        have hnone : ∀ p ∈ collection a isPrimary, p.G4ID ≠ G4ID := by
          have := (find_if_eq_none _ _).1 hp
          simpa using this
        simp only [Bool.not_false, if_true]
        exact ⟨trivial, ⟨fun _ => Or.inr ⟨i, a, rfl, ha, hnone⟩, fun _ => trivial⟩, Or.inl trivial⟩
      | some j =>
        refine ⟨rfl, ⟨fun h => ?_, fun h => ?_⟩, Or.inr ⟨(i, j), rfl⟩⟩
        · simp at h
        · rcases h with h | ⟨i', ixn, hi', hixn, hall⟩
          · exact absurd h hpres
          · simp only [Option.some.injEq] at hi'
            subst hi'
            rw [ha] at hixn
            simp only [Option.some.injEq] at hixn
            subst hixn
            have := (find_if_eq_none (fun part => decide (part.G4ID = G4ID))
              (collection a isPrimary)).2 (by simpa using hall)
            rw [hp] at this
            simp at this

/-- C5: id uniqueness is kept by the resolver.  If no two interactions of the record
share an id and no interaction holds two `prim` particles or two `sec` particles
with one `G4ID`, the same is true of the record left by every successful
`GetTrueInteraction` and every successful `GetTrueParticle`, with creation
enabled or not, the case in which the owning interaction is first created by
`FillInteraction` included. -/
theorem UniqueIds_preserved (ops : FloatOps) (fuel : Nat) (sr : StandardRecord) (t : GTree)
    (ixnID G4ID : Int) (isPrimary createNew : Bool) (hU : UniqueIds sr) :
    (∀ i sr' t', GetTrueInteraction ops fuel sr t ixnID createNew = (.ok i, sr', t') →
      UniqueIds sr') ∧
    (∀ ij sr' t',
      GetTrueParticle ops fuel sr t ixnID G4ID isPrimary createNew = (.ok ij, sr', t') →
      UniqueIds sr') := by
  refine ⟨fun i sr' t' h =>
    GetTrueInteraction_unique ops fuel sr sr' t t' ixnID createNew i hU h, ?_⟩
  intro ij sr' t' h
  rcases hr : GetTrueInteraction ops fuel sr t ixnID createNew with ⟨o, sr1, t1⟩
  cases o with
  | error e =>
    rw [GetTrueParticle_error ops fuel sr sr1 t t1 ixnID G4ID isPrimary createNew e hr] at h
    simp at h
  | ok i =>
    have hU1 := GetTrueInteraction_unique ops fuel sr sr1 t t1 ixnID createNew i hU hr
    obtain ⟨ixn, hixn, -⟩ := GetTrueInteraction_ok_get ops fuel sr sr1 t t1 ixnID createNew i hr
    rw [GetTrueParticle_unfold ops fuel sr sr1 t t1 ixnID G4ID isPrimary createNew i ixn hr hixn]
      at h
    cases hp : find_if (fun part => decide (part.G4ID = G4ID)) (collection ixn isPrimary) with
    | some j =>
      simp only [hp, Prod.mk.injEq] at h
      rw [← h.2.1]
      exact hU1
    | none =>
      simp only [hp] at h
      cases createNew with
      | false => simp at h
      | true =>
        simp only [Bool.not_true, Bool.false_eq_true, if_false, Prod.mk.injEq] at h
        rw [← h.2.1]
        apply set_appendStub_unique sr1 i ixn ixnID G4ID isPrimary hU1 hixn
        have := (find_if_eq_none _ _).1 hp
        simpa using this

/-- C5, on the three-row stream and an empty record: creating the primary with
`G4ID` 7 of interaction 10 first creates the interaction, and ids stay unique. -/
theorem UniqueIds_preserved_witness :
    UniqueIds {} ∧
    (GetTrueParticle FloatOps.exact 0 {} stream3 10 7 true true).1 = .ok (0, 0) ∧
    UniqueIds (GetTrueParticle FloatOps.exact 0 {} stream3 10 7 true true).2.1 :=
  ⟨by decide, by decide,
    (UniqueIds_preserved FloatOps.exact 0 {} stream3 10 7 true true (by decide)).2 (0, 0) _ _
      (Prod.ext (by decide) rfl)⟩

/-- C6: when `GetTrueParticle` with creation enabled resolves the owning
interaction at position `i` and its chosen collection (`prim` when `isPrimary`,
`sec` otherwise) holds no particle with the requested `G4ID`, the call succeeds;
the particle returned is the new last element of the chosen collection and has
`interaction_id = ixnID` and `G4ID = G4ID`; the chosen counter (`nprim` or
`nsec`) grew by one; the other collection and its counter are unchanged; the
list of interactions keeps its length, `nnu` and every entry at a position other
than `i`; and the tree is the one left by the resolution of the interaction. -/
theorem GetTrueParticle_create_frame (ops : FloatOps) (fuel : Nat) (sr sr1 : StandardRecord)
    (t t1 : GTree) (ixnID G4ID : Int) (isPrimary : Bool) (i : Nat) (ixn : SRTrueInteraction)
    (h1 : GetTrueInteraction ops fuel sr t ixnID true = (.ok i, sr1, t1))
    (h2 : sr1.mc.nu[i]? = some ixn)
    (h3 : ∀ p ∈ collection ixn isPrimary, p.G4ID ≠ G4ID) :
    ∃ (sr2 : StandardRecord) (ixn2 : SRTrueInteraction) (part : SRTrueParticle),
      GetTrueParticle ops fuel sr t ixnID G4ID isPrimary true
        = (.ok (i, (collection ixn isPrimary).length), sr2, t1) ∧
      sr2.mc.nu[i]? = some ixn2 ∧
      (collection ixn2 isPrimary)[(collection ixn isPrimary).length]? = some part ∧
      part.interaction_id = ixnID ∧ part.G4ID = G4ID ∧
      collection ixn2 isPrimary = collection ixn isPrimary ++ [part] ∧
      counter ixn2 isPrimary = counter ixn isPrimary + 1 ∧
      collection ixn2 (!isPrimary) = collection ixn (!isPrimary) ∧
      counter ixn2 (!isPrimary) = counter ixn (!isPrimary) ∧
      ixn2.id = ixn.id ∧ ixn2.prefsi = ixn.prefsi ∧
      sr2.mc.nu.length = sr1.mc.nu.length ∧ sr2.mc.nnu = sr1.mc.nnu ∧
      (∀ j, j ≠ i → sr2.mc.nu[j]? = sr1.mc.nu[j]?) := by
  have hp : find_if (fun part => decide (part.G4ID = G4ID)) (collection ixn isPrimary) = none := by
    rw [find_if_eq_none]
    simpa using h3
  have hlt : i < sr1.mc.nu.length := by
    rcases List.getElem?_eq_some.1 h2 with ⟨hlt, -⟩
    exact hlt
  have hS := appendStub_spec ixn ixnID G4ID isPrimary
  refine ⟨{ sr1 with mc := { sr1.mc with
      nu := sr1.mc.nu.set i (appendStub ixn ixnID G4ID isPrimary) } },
    appendStub ixn ixnID G4ID isPrimary, { G4ID := G4ID, interaction_id := ixnID },
    ?_, ?_, ?_, rfl, rfl, hS.2.1, hS.2.2.1, hS.2.2.2.1, hS.2.2.2.2, hS.1, ?_, ?_, rfl, ?_⟩
  · rw [GetTrueParticle_unfold ops fuel sr sr1 t t1 ixnID G4ID isPrimary true i ixn h1 h2, hp]
    simp
  · exact List.getElem?_set_self hlt
  · rw [hS.2.1]
    simp
  · cases isPrimary <;> simp [appendStub]
  · simp
  · intro j hj
    exact List.getElem?_set_ne (Ne.symm hj)

/-- C6, on the three-row stream and an empty record: the secondary with `G4ID` 7
of interaction 10 is created in the (empty) `sec` of the interaction at position 0. -/
theorem GetTrueParticle_create_frame_witness :
    (GetTrueInteraction FloatOps.exact 0 {} stream3 10 true).1 = .ok 0 ∧
    ∃ (sr2 : StandardRecord) (ixn2 : SRTrueInteraction) (part : SRTrueParticle),
      GetTrueParticle FloatOps.exact 0 {} stream3 10 7 false true = (.ok (0, 0), sr2, stream3) ∧
      sr2.mc.nu[0]? = some ixn2 ∧ ixn2.sec = [part] ∧ ixn2.nsec = 1 ∧
      part.interaction_id = 10 ∧ part.G4ID = 7 := by
  refine ⟨by decide, ?_⟩
  have hI : GetTrueInteraction FloatOps.exact 0 {} stream3 10 true
      = (.ok 0, (GetTrueInteraction FloatOps.exact 0 {} stream3 10 true).2.1, stream3) :=
    Prod.ext (by decide) (Prod.ext rfl (by decide))
  obtain ⟨ixn, hixn, -⟩ := GetTrueInteraction_ok_get FloatOps.exact 0 {} _ stream3 stream3 10 true 0 hI
  have hsec : ixn.sec = [] := by
    obtain ⟨gEvt, ixn', -, -, hfill, -, hsr, -⟩ :=
      GetTrueInteraction_create_ok FloatOps.exact 0 {} _ stream3 stream3 10 0 rfl hI
    rw [hsr] at hixn
    simp at hixn
    rw [← hixn]
    exact (FillInteraction_fresh FloatOps.exact ixn' gEvt hfill).1
  have hnsec : ixn.nsec = 0 := by
    obtain ⟨gEvt, ixn', -, -, hfill, -, hsr, -⟩ :=
      GetTrueInteraction_create_ok FloatOps.exact 0 {} _ stream3 stream3 10 0 rfl hI
    rw [hsr] at hixn
    simp at hixn
    rw [← hixn]
    obtain ⟨hdr, hh, rfl⟩ := FillInteraction_ok FloatOps.exact {} ixn' gEvt hfill
    simp [(particleLoop_frame hdr gEvt.particles).2.2.2.2,
      (fillHeader_ok FloatOps.exact {} hdr gEvt hh).2.2.2.2.2.1]
  obtain ⟨sr2, ixn2, part, hcall, hget, -, hpid, hpg, hcol, hcnt, -⟩ :=
    GetTrueParticle_create_frame FloatOps.exact 0 {} _ stream3 stream3 10 7 false 0 ixn hI hixn
      (by simp [collection, hsec])
  refine ⟨sr2, ixn2, part, ?_, hget, ?_, ?_, hpid, hpg⟩
  · simpa [collection, hsec] using hcall
  · simpa [collection, hsec] using hcol
  · simpa [counter, hnsec] using hcnt

/-! ## The converter: particle lists, counters, ids, divisions -/

/-- C7: on the row whose stack is a stable-final-state proton followed by a
hadron-in-the-nucleus neutron, `FillInteraction` on a fresh interaction puts the
neutron in `prim` and the proton in `prefsi`: the test of line 180 sends the
entries that are not stable-final-state to the primaries. -/
theorem FillInteraction_prim_holds_nucleus_hadrons (ops : FloatOps) :
    ∃ nu, FillInteraction ops {} rowProtonNeutron = .ok nu ∧
      nu.prim.map (fun x => x.pdg) = [2112] ∧ nu.prefsi.map (fun x => x.pdg) = [2212] := by
  refine ⟨_, rfl, ?_, ?_⟩ <;>
    simp [fillHeader, GENIE2CAF, particleLoop, particleStep, countSpecies, rowProtonNeutron]

/-- C8: on the same row, which holds one stable-final-state proton and no
stable-final-state neutron, `FillInteraction` on a fresh interaction leaves
`nproton = 0` and sets `nneutron = 1`: the counters follow the entries marked
hadron-in-the-nucleus. -/
theorem FillInteraction_counts_nucleus_hadrons (ops : FloatOps) :
    ∃ nu, FillInteraction ops {} rowProtonNeutron = .ok nu ∧
      nu.nproton = 0 ∧ nu.nneutron = 1 ∧
      (rowProtonNeutron.particles.filter
        (fun p => decide (p.Status = .kIStStableFinalState ∧ p.Pdg = 2212))).length = 1 ∧
      (rowProtonNeutron.particles.filter
        (fun p => decide (p.Status = .kIStStableFinalState ∧ p.Pdg = 2112))).length = 0 := by
  refine ⟨_, rfl, ?_, ?_, by decide, by decide⟩ <;>
    simp [fillHeader, GENIE2CAF, particleLoop, particleStep, countSpecies, rowProtonNeutron]

/-- C9: when `FillInteraction` converts a row into a fresh interaction, the element
at position `i` of `prim` has `G4ID = i`; hence the `G4ID`s of `prim` are pairwise
distinct, the final value of the counter `stableCtr` is the length of `prim`, and
the elements of `prim` follow the order of the particle stack. -/
theorem FillInteraction_prim_ids_sequential (ops : FloatOps) (gEvt : NtpMCEventRecord)
    (nu : SRTrueInteraction) (h : FillInteraction ops {} gEvt = .ok nu) :
    (∀ (i : Nat) (p : SRTrueParticle), nu.prim[i]? = some p → p.G4ID = (i : Int)) ∧
    (nu.prim.map (fun p => p.G4ID)).Nodup ∧
    (∃ hdr, fillHeader ops {} gEvt = .ok hdr ∧
      (particleLoop hdr gEvt.particles).2 = (nu.prim.length : Int)) ∧
    List.Sublist (nu.prim.map (fun p => p.pdg)) (gEvt.particles.map (fun p => p.Pdg)) := by
  have hseq := (FillInteraction_fresh ops nu gEvt h).2
  obtain ⟨hdr, hh, hnu⟩ := FillInteraction_ok ops {} nu gEvt h
  have hprim0 : hdr.prim = [] := (fillHeader_ok ops {} hdr gEvt hh).2.1
  have hprim : nu.prim = (particleLoop hdr gEvt.particles).1.prim := by rw [hnu]
  refine ⟨?_, ?_, ⟨hdr, hh, ?_⟩, ?_⟩
  · intro i p hp
    have hlt : i < nu.prim.length := (List.getElem?_eq_some.1 hp).1
    have h1 : (nu.prim.map (fun x => x.G4ID))[i]? = some p.G4ID := by simp [hp]
    rw [hseq] at h1
    simp [List.getElem?_range hlt] at h1
    exact h1.symm
  · rw [hseq]
    exact List.Nodup.map Int.ofNat_injective (List.nodup_range _)
  · rw [hprim]
    exact (particleLoop_seq hdr gEvt.particles hprim0).1
  · rw [hprim]
    unfold particleLoop
    rw [(foldl_particleStep_pdg gEvt.particles (hdr, 0)).1]
    simp only [hprim0, List.map_nil, List.nil_append]
    exact List.Sublist.map _ (List.filter_sublist _)

/-- C9, on the row with a stable proton and a nucleus neutron: the conversion
succeeds and its single primary has `G4ID` 0. -/
theorem FillInteraction_prim_ids_sequential_witness :
    ∃ nu, FillInteraction FloatOps.exact {} rowProtonNeutron = .ok nu ∧
      nu.prim.length = 1 ∧
      ∀ (i : Nat) (p : SRTrueParticle), nu.prim[i]? = some p → p.G4ID = (i : Int) :=
  ⟨_, rfl, by simp [fillHeader, GENIE2CAF, particleLoop, particleStep, countSpecies,
      rowProtonNeutron],
    (FillInteraction_prim_ids_sequential FloatOps.exact rowProtonNeutron _ rfl).1⟩

/-- C10 fails as stated: on a row with `q0 = 0` and `E = 0` the converter still
assigns `bjorkenX` and `inelasticity`, each with the value of its division. -/
theorem FillInteraction_divides_by_zero :
    (rowZeroEnergy.ProbeP4Lab.sub {}).E = 0 ∧ rowZeroEnergy.ProbeE = 0 ∧
    ∃ nu, FillInteraction FloatOps.exact {} rowZeroEnergy = .ok nu ∧
      nu.q0 = some 0 ∧ nu.E = some 0 ∧
      nu.bjorkenX = some (FloatOps.exact.div 1 (2 * Mnuc * 0)) ∧
      nu.inelasticity = some (FloatOps.exact.div 0 0) ∧
      nu.bjorkenX ≠ none ∧ nu.inelasticity ≠ none := by
  refine ⟨by simp [rowZeroEnergy, TLorentzVector.sub, TLorentzVector.E], rfl, _, rfl, ?_⟩
  simp [fillHeader, GENIE2CAF, particleLoop, rowZeroEnergy, TLorentzVector.sub,
    TLorentzVector.E, TLorentzVector.Mag2, TLorentzVector.Vect, TVector3.Mag2]

/-- C10 as amended: the converter has no guard on its divisions.  Whenever
`FillInteraction` returns, `Q2`, `q0` and `E` are set, `bjorkenX` is set to the
quotient `Q2 / (2 * Mnuc * q0)` and `inelasticity` to the quotient `q0 / E`,
whatever the values of `q0` and `E`. -/
theorem FillInteraction_divisions_unguarded (ops : FloatOps) (nu0 nu : SRTrueInteraction)
    (gEvt : NtpMCEventRecord) (h : FillInteraction ops nu0 gEvt = .ok nu) :
    ∃ Q2 q0 E, nu.Q2 = some Q2 ∧ nu.q0 = some q0 ∧ nu.E = some E ∧
      q0 = gEvt.ProbeP4Lab.t ∧ E = gEvt.ProbeE ∧
      nu.bjorkenX = some (ops.div Q2 (2 * Mnuc * q0)) ∧
      nu.inelasticity = some (ops.div q0 E) := by
  obtain ⟨hdr, hh, rfl⟩ := FillInteraction_ok ops nu0 nu gEvt h
  have hK := fillHeader_kin ops nu0 hdr gEvt hh
  have hH := fillHeader_ok ops nu0 hdr gEvt hh
  have hL := particleLoop_kin hdr gEvt.particles
  refine ⟨-(gEvt.ProbeP4Lab.sub {}).Mag2, (gEvt.ProbeP4Lab.sub {}).E, gEvt.ProbeE,
    ?_, ?_, ?_, ?_, rfl, ?_, ?_⟩
  · simp [hL.1, hK.1]
  · simp [hL.2.1, hK.2.1]
  · simp [hL.2.2.1, hK.2.2]
  · simp [TLorentzVector.sub, TLorentzVector.E]
  · simp [hL.2.2.2.1, hH.2.2.2.2.2.2.2.2.2.2.2.1]
  · simp [hL.2.2.2.2, hH.2.2.2.2.2.2.2.2.2.2.2.2]

/-- C10 as amended, on the row with `q0 = 0` and `E = 0`. -/
theorem FillInteraction_divisions_unguarded_witness :
    ∃ Q2 q0 E, q0 = rowZeroEnergy.ProbeP4Lab.t ∧ E = rowZeroEnergy.ProbeE ∧
      ∀ nu, FillInteraction FloatOps.exact {} rowZeroEnergy = .ok nu →
        nu.bjorkenX = some (FloatOps.exact.div Q2 (2 * Mnuc * q0)) ∧
        nu.inelasticity = some (FloatOps.exact.div q0 E) := by
  obtain ⟨Q2, q0, E, -, -, -, h4, h5, h6, h7⟩ :=
    FillInteraction_divisions_unguarded FloatOps.exact {} _ rowZeroEnergy rfl
  refine ⟨Q2, q0, E, h4, h5, ?_⟩
  intro nu hnu
  have : nu = _ := (Except.ok.inj hnu).symm
  subst this
  exact ⟨h6, h7⟩

/-! ## Properties of the reconstruction filler -/

theorem forEach_cons_ok {σ α : Type} (step : σ → α → Except Err σ) (s s1 : σ) (a : α)
    (as : List α) (h : step s a = .ok s1) :
    forEach step s (a :: as) = forEach step s1 as := by
  simp [forEach, h]

theorem forEach_cons_error {σ α : Type} (step : σ → α → Except Err σ) (s : σ) (a : α)
    (as : List α) (e : Err) (h : step s a = .error e) :
    forEach step s (a :: as) = .error e := by
  simp [forEach, h]

/-- Induction over a loop that returns: a relation between the state before and
after, reflexive, transitive and kept by every returning step, holds of the loop. -/
theorem forEach_rel {σ α : Type} (step : σ → α → Except Err σ) (R : σ → σ → Prop)
    (hrefl : ∀ s, R s s) (htrans : ∀ a b c, R a b → R b c → R a c)
    (hstep : ∀ s a s1, step s a = .ok s1 → R s s1)
    (l : List α) (s s' : σ) (h : forEach step s l = .ok s') : R s s' := by
  induction l generalizing s with
  | nil =>
    simp only [forEach, Except.ok.injEq] at h
    rw [← h]
    exact hrefl s
  | cons a as ih =>
    cases hs : step s a with
    | error e =>
      rw [forEach_cons_error step s a as e hs] at h
      simp at h
    | ok s1 =>
      rw [forEach_cons_ok step s s1 a as hs] at h
      exact htrans _ _ _ (hstep s a s1 hs) (ih s1 h)

theorem setNDLArDlp_proj (sr : StandardRecord) (l : List SRNDLArInt) :
    (sr.setNDLArDlp l).nd.lar.dlp = l ∧ (sr.setNDLArDlp l).common = sr.common ∧
    (sr.setNDLArDlp l).mc = sr.mc := by
  simp [StandardRecord.setNDLArDlp]

theorem length_resize {α : Type} (l : List α) (n : Nat) (d : α) : (resize l n d).length = n := by
  simp [resize]
  omega

/-- What one returning iteration of the loop of `FillTracks` does. -/
theorem FillTracks_step_ok (ops : FloatOps) (s s1 : StandardRecord) (p : dlp.Particle)
    (h : FillTracks.step ops s p = .ok s1) :
    s1.common = s.common ∧ s1.mc = s.mc ∧ s1.nd.lar.dlp.length = s.nd.lar.dlp.length ∧
    (∀ j, tracksAt s1 j = (tracksAt s j).map (fun l => l ++ tracksFor ops s.common.ixn.dlp j [p])) ∧
    (∀ j, showersAt s1 j = showersAt s j) := by
  unfold FillTracks.step at h
  by_cases ht : p.semantic_type = .kTrack
  · simp only [ht, ne_eq, not_true_eq_false, if_false] at h
    cases hf : find_if (fun ixn => decide (ixn.id = p.interaction_id)) s.common.ixn.dlp with
    | none => simp [hf] at h
    | some k =>
      simp only [hf] at h
      cases hk : s.nd.lar.dlp[k]? with
      | none => simp [hk] at h
      | some e =>
        simp only [hk, Except.ok.injEq] at h
        subst h
        have hlt : k < s.nd.lar.dlp.length := (List.getElem?_eq_some.1 hk).1
        refine ⟨(setNDLArDlp_proj _ _).2.1, (setNDLArDlp_proj _ _).2.2, ?_, ?_, ?_⟩
        · simp [(setNDLArDlp_proj _ _).1]
        · intro j
          simp only [tracksAt, (setNDLArDlp_proj _ _).1, tracksFor, List.getElem?_set]
          by_cases hkj : k = j
          · subst hkj
            simp [hlt, hk, ht, hf]
          · simp [hkj, ht, hf]
            cases s.nd.lar.dlp[j]? <;> rfl
        · intro j
          simp only [showersAt, (setNDLArDlp_proj _ _).1, List.getElem?_set]
          by_cases hkj : k = j
          · subst hkj
            simp [hlt, hk]
          · simp [hkj]
  · simp only [ht, ne_eq, not_false_eq_true, if_true, Except.ok.injEq] at h
    subst h
    refine ⟨rfl, rfl, rfl, ?_, fun j => rfl⟩
    intro j
    simp [tracksFor, ht]

theorem tracksFor_cons (ops : FloatOps) (ixns : List SRInteraction) (j : Nat) (p : dlp.Particle)
    (ps : List dlp.Particle) :
    tracksFor ops ixns j (p :: ps) = tracksFor ops ixns j [p] ++ tracksFor ops ixns j ps := by
  simp only [tracksFor, List.filter_cons, List.filter_nil]
  split_ifs <;> simp

/-- What a returning loop of `FillTracks` does, from any state. -/
theorem FillTracks_loop_ok (ops : FloatOps) (ps : List dlp.Particle) (s s' : StandardRecord)
    (h : forEach (FillTracks.step ops) s ps = .ok s') :
    s'.common = s.common ∧ s'.mc = s.mc ∧ s'.nd.lar.dlp.length = s.nd.lar.dlp.length ∧
    (∀ j, tracksAt s' j = (tracksAt s j).map (fun l => l ++ tracksFor ops s.common.ixn.dlp j ps)) ∧
    (∀ j, showersAt s' j = showersAt s j) := by
  induction ps generalizing s with
  | nil =>
    simp only [forEach, Except.ok.injEq] at h
    subst h
    refine ⟨rfl, rfl, rfl, ?_, fun j => rfl⟩
    intro j
    simp [tracksFor]
  | cons p ps ih =>
    cases hs : FillTracks.step ops s p with
    | error e =>
      rw [forEach_cons_error _ s p ps e hs] at h
      simp at h
    | ok s1 =>
      rw [forEach_cons_ok _ s s1 p ps hs] at h
      obtain ⟨a1, a2, a3, a4, a5⟩ := FillTracks_step_ok ops s s1 p hs
      obtain ⟨b1, b2, b3, b4, b5⟩ := ih s1 h
      refine ⟨b1.trans a1, b2.trans a2, b3.trans a3, ?_, fun j => (b5 j).trans (a5 j)⟩
      intro j
      rw [b4 j, a4 j, a1, tracksFor_cons ops s.common.ixn.dlp j p ps]
      cases tracksAt s j <;> simp

/-- In a returning loop of `FillTracks` every Track-typed row found its interaction. -/
theorem FillTracks_loop_found (ops : FloatOps) (ps : List dlp.Particle) (s s' : StandardRecord)
    (h : forEach (FillTracks.step ops) s ps = .ok s') :
    ∀ p ∈ ps, p.semantic_type = .kTrack →
      ∃ k, find_if (fun ixn => decide (ixn.id = p.interaction_id)) s.common.ixn.dlp = some k := by
  induction ps generalizing s with
  | nil => simp
  | cons q qs ih =>
    cases hs : FillTracks.step ops s q with
    | error e =>
      rw [forEach_cons_error _ s q qs e hs] at h
      simp at h
    | ok s1 =>
      rw [forEach_cons_ok _ s s1 q qs hs] at h
      have hc := (FillTracks_step_ok ops s s1 q hs).1
      intro p hp ht
      rcases List.mem_cons.1 hp with rfl | hp
      · cases hf : find_if (fun ixn => decide (ixn.id = p.interaction_id)) s.common.ixn.dlp with
        | some k => exact ⟨k, rfl⟩
        | none => simp [FillTracks.step, ht, hf] at hs
      · have := ih s1 h p hp ht
        rwa [hc] at this

/-- C11: when `FillTracks` returns, the per-interaction container has one entry per
reconstructed interaction, and the track list at every position `j` is the list
left by the `resize` of line 123 followed by the tracks of exactly those
Track-typed rows whose interaction id is first found at position `j` of
`sr.common.ixn.dlp`, in source row order.  So the track of a row goes to the
position of the first interaction with the id of the row and to no other
position, the position numerically equal to the id included when it differs. -/
theorem FillTracks_tracks_by_position (ops : FloatOps) (particles : List dlp.Particle)
    (sr sr' : StandardRecord) (h : FillTracks ops particles sr = .ok sr') :
    sr'.nd.lar.dlp.length = sr.common.ixn.dlp.length ∧
    sr'.common = sr.common ∧
    (∀ j, tracksAt sr' j
      = (tracksAt (sr.setNDLArDlp (resize sr.nd.lar.dlp sr.common.ixn.dlp.length {})) j).map
          (fun l => l ++ tracksFor ops sr.common.ixn.dlp j particles)) ∧
    (∀ p ∈ particles, p.semantic_type = .kTrack →
      ∃ (k : Nat) (ixn : SRInteraction) (l : List SRTrack),
        find_if (fun ixn => decide (ixn.id = p.interaction_id)) sr.common.ixn.dlp = some k ∧
        sr.common.ixn.dlp[k]? = some ixn ∧ ixn.id = p.interaction_id ∧
        tracksAt sr' k = some l ∧ mkTrack ops p ∈ l ∧
        ∀ j, j ≠ k → tracksFor ops sr.common.ixn.dlp j [p] = []) := by
  unfold FillTracks at h
  obtain ⟨h1, -, h3, h4, -⟩ := FillTracks_loop_ok ops particles _ sr' h
  have hfound := FillTracks_loop_found ops particles _ sr' h
  simp only [(setNDLArDlp_proj _ _).2.1] at h1 h4 hfound
  simp only [(setNDLArDlp_proj _ _).1, length_resize] at h3
  refine ⟨h3, h1, h4, ?_⟩
  intro p hp ht
  obtain ⟨k, hk⟩ := hfound p hp ht
  obtain ⟨ixn, hixn, hid⟩ := find_if_get _ _ _ hk
  have hklt : k < sr.common.ixn.dlp.length := find_if_lt _ _ _ hk
  have hk' : k < sr'.nd.lar.dlp.length := by omega
  have hmem : mkTrack ops p ∈ tracksFor ops sr.common.ixn.dlp k particles := by
    simp only [tracksFor, List.mem_map, List.mem_filter]
    exact ⟨p, ⟨hp, by simp [ht, hk]⟩, rfl⟩
  have hsome : ∃ l0, tracksAt (sr.setNDLArDlp
      (resize sr.nd.lar.dlp sr.common.ixn.dlp.length {})) k = some l0 := by
    cases hx : tracksAt (sr.setNDLArDlp (resize sr.nd.lar.dlp sr.common.ixn.dlp.length {})) k with
    | some l0 => exact ⟨l0, rfl⟩
    | none =>
      have := h4 k
      rw [hx] at this
      simp only [tracksAt, Option.map_none', Option.map_eq_none'] at this
      rw [List.getElem?_eq_none_iff] at this
      omega
  obtain ⟨l0, hl0⟩ := hsome
  refine ⟨k, ixn, l0 ++ tracksFor ops sr.common.ixn.dlp k particles, hk, hixn,
    by simpa using hid, ?_, List.mem_append_right _ hmem, ?_⟩
  · rw [h4 k, hl0]
    rfl
  · intro j hj
    have : ¬ (k = j) := fun hkj => hj hkj.symm
    simp [tracksFor, ht, hk, this]

/-- C11, on one interaction with id 5 at position 0 and one Track row with
interaction id 5: the track is the content of the track list at position 0, and
there is no position 5. -/
theorem FillTracks_tracks_by_position_witness :
    ∃ sr', FillTracks FloatOps.exact [trackRow5] recoId5 = .ok sr' ∧
      recoId5.common.ixn.dlp.map (fun ixn => ixn.id) = [5] ∧
      sr'.nd.lar.dlp.length = 1 ∧
      tracksAt sr' 0 = some [mkTrack FloatOps.exact trackRow5] ∧
      tracksAt sr' 5 = none := by
  refine ⟨_, rfl, by decide, by decide, ?_, by decide⟩
  have H := (FillTracks_tracks_by_position FloatOps.exact [trackRow5] recoId5 _ rfl).2.2.1 0
  rw [H]
  rfl

/-- C12: with one reconstructed interaction of id 5 at position 0 (interactions
filled first, then `FillTracks`), the shower of a Shower-typed row with
interaction id 5 is not put at position 0, where `std::find_if` finds the id: line
172 indexes `sr.nd.lar.dlp` with the id, so the vector is resized to 6 entries and
the shower is pushed at position 5. -/
theorem FillShowers_uses_id_as_index :
    ∃ sr1 sr2, FillTracks FloatOps.exact [showerRow5] recoId5 = .ok sr1 ∧
      FillShowers [showerRow5] sr1 = .ok sr2 ∧
      find_if (fun ixn => decide (ixn.id = showerRow5.interaction_id)) sr2.common.ixn.dlp
        = some 0 ∧
      showersAt sr2 0 = some [] ∧
      showersAt sr2 5 = some [mkShower showerRow5] :=
  ⟨_, _, rfl, rfl, by decide, rfl, rfl⟩

/-- C18: on an empty record (where every counter equals its length) a creating
`GetTrueInteraction` for id 1, served by a row whose stack holds one entry that
the converter pushes to `prim`, succeeds and leaves an interaction with one
primary and `nprim = 0`: `FillInteraction` pushes to `prim` without incrementing
`nprim`.  The counter `nnu` does follow the collection. -/
theorem FillInteraction_leaves_nprim_zero :
    (GetTrueInteraction FloatOps.exact 0 {} streamProtonNeutron 1 true).1 = .ok 0 ∧
    (GetTrueInteraction FloatOps.exact 0 {} streamProtonNeutron 1 true).2.1.mc.nnu = 1 ∧
    (GetTrueInteraction FloatOps.exact 0 {} streamProtonNeutron 1 true).2.1.mc.nu.map
      (fun ixn => (ixn.nprim, ixn.prim.length, ixn.nsec, ixn.sec.length)) = [(0, 1, 0, 0)] := by
  refine ⟨by decide, by decide, by decide⟩

/-- C19: after `FillInteractions` on one row of id 5, then `FillTracks` and
`FillShowers` on one Shower-typed row of interaction 5, all returning,
`common.ixn.dlp` has one entry and `ndlp = 1` while `nd.lar.dlp` has six. -/
theorem FillShowers_breaks_parallel_containers :
    recoId5 = FillInteractions 0 [{ id := 5 }] {} ∧
    ∃ sr1 sr2, FillTracks FloatOps.exact [showerRow5] recoId5 = .ok sr1 ∧
      FillShowers [showerRow5] sr1 = .ok sr2 ∧
      sr2.common.ixn.dlp.length = 1 ∧ sr2.common.ixn.ndlp = 1 ∧
      sr2.nd.lar.dlp.length = 6 :=
  ⟨rfl, _, _, rfl, rfl, by decide, by decide, by decide⟩

/-- C20: for event index 0, one truth interaction row and one primary truth
particle row, `FillTruth` on a record with an empty truth collection leaves two
truth interactions: the first is default-constructed (no vertex, `nprim = 0`) and
holds the primary; the second carries the vertex, energy, flag and primary count
of the row and holds no primary.  For event index 2 the index `sr.mc.nu[evtIdx]`
is outside the collection. -/
theorem FillTruth_resize_then_push :
    (∃ sr', FillTruth 0 [truePrimary7] [truthRow7] {} = .ok sr' ∧
      sr'.mc.nu.length = 2 ∧
      sr'.mc.nu.map (fun e => (e.vtx.x.isSome, e.E.isSome, e.iscc, e.nprim, e.prim.length))
        = [(false, false, false, 0, 1), (true, true, true, 1, 0)]) ∧
    FillTruth 2 [truePrimary7] [truthRow7] {} = .error .Undefined :=
  ⟨⟨_, rfl, by decide, by decide⟩, by decide⟩

theorem FillInteractions_foldl (rows : List dlp.Interaction) (s : StandardRecord) :
    (rows.foldl
      (fun sr inx =>
        ({ sr with common := { sr.common with
            ixn := { sr.common.ixn with dlp := sr.common.ixn.dlp ++ [mkInteraction inx] } } } :
          StandardRecord)) s).common.ixn.dlp = s.common.ixn.dlp ++ rows.map mkInteraction ∧
    (rows.foldl
      (fun sr inx =>
        ({ sr with common := { sr.common with
            ixn := { sr.common.ixn with dlp := sr.common.ixn.dlp ++ [mkInteraction inx] } } } :
          StandardRecord)) s).common.ixn.ndlp = s.common.ixn.ndlp ∧
    (rows.foldl
      (fun sr inx =>
        ({ sr with common := { sr.common with
            ixn := { sr.common.ixn with dlp := sr.common.ixn.dlp ++ [mkInteraction inx] } } } :
          StandardRecord)) s).mc = s.mc ∧
    (rows.foldl
      (fun sr inx =>
        ({ sr with common := { sr.common with
            ixn := { sr.common.ixn with dlp := sr.common.ixn.dlp ++ [mkInteraction inx] } } } :
          StandardRecord)) s).nd = s.nd := by
  induction rows generalizing s with
  | nil => simp
  | cons r rs ih =>
    simp only [List.foldl_cons, List.map_cons]
    obtain ⟨h1, h2, h3, h4⟩ := ih
      ({ s with common := { s.common with
          ixn := { s.common.ixn with dlp := s.common.ixn.dlp ++ [mkInteraction r] } } })
    refine ⟨?_, h2, h3, h4⟩
    rw [h1]
    simp

/-- What `FillInteractions` does to any record. -/
theorem FillInteractions_spec (evtIdx : Nat) (rows : List dlp.Interaction) (sr : StandardRecord) :
    (FillInteractions evtIdx rows sr).common.ixn.dlp
      = sr.common.ixn.dlp ++ rows.map mkInteraction ∧
    (FillInteractions evtIdx rows sr).common.ixn.ndlp = (rows.length : Int) ∧
    (FillInteractions evtIdx rows sr).mc = sr.mc ∧
    (FillInteractions evtIdx rows sr).nd = sr.nd := by
  unfold FillInteractions
  obtain ⟨h1, h2, h3, h4⟩ := FillInteractions_foldl rows
    ({ sr with common := { sr.common with
        ixn := { sr.common.ixn with ndlp := (rows.length : Int) } } })
  exact ⟨h1, h2, h3, h4⟩

/-- C14 fails as stated: two source rows with the same id 5 give two entries
with the same id. -/
theorem FillInteractions_copies_duplicate_ids :
    (FillInteractions 0 [{ id := 5 }, { id := 5 }] {}).common.ixn.dlp.map (fun e => e.id)
      = [5, 5] ∧
    ¬ ((FillInteractions 0 [{ id := 5 }, { id := 5 }] {}).common.ixn.dlp.map
        (fun e => e.id)).Nodup := by
  refine ⟨by decide, by decide⟩

/-- C14 as amended: on a record whose reconstructed-interaction sequence is empty,
`FillInteractions` leaves exactly as many entries as there are source rows,
`ndlp` is that number, the entry at position `i` carries the id and the vertex of
the row at position `i`, and the ids of the entries are pairwise distinct exactly
when the ids of the source rows are. -/
theorem FillInteractions_entries (evtIdx : Nat) (rows : List dlp.Interaction)
    (sr : StandardRecord) (h0 : sr.common.ixn.dlp = []) :
    (FillInteractions evtIdx rows sr).common.ixn.dlp.length = rows.length ∧
    (FillInteractions evtIdx rows sr).common.ixn.ndlp = (rows.length : Int) ∧
    (∀ (i : Nat) (row : dlp.Interaction), rows[i]? = some row →
      ∃ e, (FillInteractions evtIdx rows sr).common.ixn.dlp[i]? = some e ∧
        e.id = row.id ∧ e.vtx = SRVector3D.ofArray row.vertex) ∧
    (((FillInteractions evtIdx rows sr).common.ixn.dlp.map (fun e => e.id)).Nodup ↔
      (rows.map (fun row => row.id)).Nodup) := by
  obtain ⟨h1, h2, -, -⟩ := FillInteractions_spec evtIdx rows sr
  rw [h0, List.nil_append] at h1
  refine ⟨by rw [h1, List.length_map], h2, ?_, ?_⟩
  · intro i row hrow
    refine ⟨mkInteraction row, ?_, rfl, rfl⟩
    rw [h1, List.getElem?_map, hrow]
    rfl
  · rw [h1, List.map_map]
    rfl

/-- C14 as amended, on a fresh record and one row of id 5. -/
theorem FillInteractions_entries_witness :
    (FillInteractions 0 [{ id := 5 }] {}).common.ixn.dlp.length = 1 ∧
    (FillInteractions 0 [{ id := 5 }] {}).common.ixn.ndlp = 1 ∧
    ((FillInteractions 0 [{ id := 5 }] {}).common.ixn.dlp.map (fun e => e.id)).Nodup := by
  obtain ⟨h1, h2, -, h4⟩ := FillInteractions_entries 0 [{ id := 5 }] {} rfl
  exact ⟨h1, h2, h4.2 (by decide)⟩

/-! ### `FillTracks`: when it aborts -/

theorem FillTracks_step_abort (ops : FloatOps) (s : StandardRecord) (p : dlp.Particle)
    (ht : p.semantic_type = .kTrack)
    (hf : find_if (fun ixn => decide (ixn.id = p.interaction_id)) s.common.ixn.dlp = none) :
    FillTracks.step ops s p = .error .DanglingReference := by
  simp [FillTracks.step, ht, hf]

theorem FillTracks_step_returns (ops : FloatOps) (s : StandardRecord) (p : dlp.Particle)
    (hlen : s.nd.lar.dlp.length = s.common.ixn.dlp.length)
    (hf : p.semantic_type = .kTrack →
      ∃ k, find_if (fun ixn => decide (ixn.id = p.interaction_id)) s.common.ixn.dlp = some k) :
    ∃ s1, FillTracks.step ops s p = .ok s1 := by
  by_cases ht : p.semantic_type = .kTrack
  · obtain ⟨k, hk⟩ := hf ht
    have hklt : k < s.nd.lar.dlp.length := by
      rw [hlen]
      exact find_if_lt _ _ _ hk
    have hget : s.nd.lar.dlp[k]? = some (s.nd.lar.dlp[k]) := List.getElem?_eq_getElem hklt
    refine ⟨s.setNDLArDlp (s.nd.lar.dlp.set k
      { s.nd.lar.dlp[k] with tracks := s.nd.lar.dlp[k].tracks ++ [mkTrack ops p] }), ?_⟩
    simp [FillTracks.step, ht, hk, hget]
  · exact ⟨s, by simp [FillTracks.step, ht]⟩

/-- The loop of `FillTracks`, started with the two containers of equal length,
aborts with DanglingReference when some Track-typed row has an id that
`std::find_if` does not find, and returns otherwise. -/
theorem FillTracks_loop_outcome (ops : FloatOps) (ps : List dlp.Particle) (s : StandardRecord)
    (hlen : s.nd.lar.dlp.length = s.common.ixn.dlp.length) :
    ((∃ p ∈ ps, p.semantic_type = .kTrack ∧
        find_if (fun ixn => decide (ixn.id = p.interaction_id)) s.common.ixn.dlp = none) →
      forEach (FillTracks.step ops) s ps = .error .DanglingReference) ∧
    ((∀ p ∈ ps, p.semantic_type = .kTrack →
        ∃ k, find_if (fun ixn => decide (ixn.id = p.interaction_id)) s.common.ixn.dlp = some k) →
      ∃ s', forEach (FillTracks.step ops) s ps = .ok s') := by
  induction ps generalizing s with
  | nil =>
    refine ⟨?_, fun _ => ⟨s, rfl⟩⟩
    rintro ⟨p, hp, -⟩
    simp at hp
  | cons q qs ih =>
    by_cases hq : q.semantic_type = .kTrack ∧
        find_if (fun ixn => decide (ixn.id = q.interaction_id)) s.common.ixn.dlp = none
    · refine ⟨fun _ => ?_, fun hall => ?_⟩
      · exact forEach_cons_error _ s q qs _ (FillTracks_step_abort ops s q hq.1 hq.2)
      · obtain ⟨k, hk⟩ := hall q (List.mem_cons_self _ _) hq.1
        rw [hq.2] at hk
        simp at hk
    · have hfq : q.semantic_type = .kTrack →
          ∃ k, find_if (fun ixn => decide (ixn.id = q.interaction_id)) s.common.ixn.dlp
            = some k := by
        intro ht
        cases hf : find_if (fun ixn => decide (ixn.id = q.interaction_id)) s.common.ixn.dlp with
        | some k => exact ⟨k, rfl⟩
        | none => exact absurd ⟨ht, hf⟩ hq
      obtain ⟨s1, hs1⟩ := FillTracks_step_returns ops s q hlen hfq
      obtain ⟨hc, -, hl, -, -⟩ := FillTracks_step_ok ops s s1 q hs1
      have hlen1 : s1.nd.lar.dlp.length = s1.common.ixn.dlp.length := by rw [hl, hc, hlen]
      obtain ⟨ih1, ih2⟩ := ih s1 hlen1
      rw [forEach_cons_ok _ s s1 q qs hs1]
      rw [hc] at ih1 ih2
      refine ⟨?_, ?_⟩
      · rintro ⟨p, hp, ht, hf⟩
        rcases List.mem_cons.1 hp with rfl | hp
        · exact absurd ⟨ht, hf⟩ hq
        · exact ih1 ⟨p, hp, ht, hf⟩
      · intro hall
        exact ih2 (fun p hp ht => hall p (List.mem_cons_of_mem _ hp) ht)

/-- The outcome of `FillTracks` on any record. -/
theorem FillTracks_outcome (ops : FloatOps) (ps : List dlp.Particle) (sr : StandardRecord) :
    (FillTracks ops ps sr = .error .DanglingReference ↔
      ∃ p ∈ ps, p.semantic_type = .kTrack ∧
        ∀ ixn ∈ sr.common.ixn.dlp, ixn.id ≠ p.interaction_id) ∧
    ((∃ sr', FillTracks ops ps sr = .ok sr') ∨
      FillTracks ops ps sr = .error .DanglingReference) := by
  have hnone : ∀ p : dlp.Particle,
      find_if (fun ixn => decide (ixn.id = p.interaction_id)) sr.common.ixn.dlp = none ↔
        ∀ ixn ∈ sr.common.ixn.dlp, ixn.id ≠ p.interaction_id := by
    intro p
    rw [find_if_eq_none]
    simp
  have hlen : (sr.setNDLArDlp (resize sr.nd.lar.dlp sr.common.ixn.dlp.length {})).nd.lar.dlp.length
      = (sr.setNDLArDlp (resize sr.nd.lar.dlp sr.common.ixn.dlp.length {})).common.ixn.dlp.length := by
    rw [(setNDLArDlp_proj _ _).1, (setNDLArDlp_proj _ _).2.1, length_resize]
  obtain ⟨hA, hB⟩ := FillTracks_loop_outcome ops ps _ hlen
  rw [(setNDLArDlp_proj _ _).2.1] at hA hB
  unfold FillTracks
  by_cases hbad : ∃ p ∈ ps, p.semantic_type = .kTrack ∧
      find_if (fun ixn => decide (ixn.id = p.interaction_id)) sr.common.ixn.dlp = none
  · have herr := hA hbad
    refine ⟨⟨fun _ => ?_, fun _ => herr⟩, Or.inr herr⟩
    obtain ⟨p, hp, ht, hf⟩ := hbad
    exact ⟨p, hp, ht, (hnone p).1 hf⟩
  · have hall : ∀ p ∈ ps, p.semantic_type = .kTrack →
        ∃ k, find_if (fun ixn => decide (ixn.id = p.interaction_id)) sr.common.ixn.dlp
          = some k := by
      intro p hp ht
      cases hf : find_if (fun ixn => decide (ixn.id = p.interaction_id)) sr.common.ixn.dlp with
      | some k => exact ⟨k, rfl⟩
      | none => exact absurd ⟨p, hp, ht, hf⟩ hbad
    obtain ⟨s', hs'⟩ := hB hall
    refine ⟨⟨fun h => ?_, fun h => ?_⟩, Or.inl ⟨s', hs'⟩⟩
    · rw [hs'] at h
      simp at h
    · obtain ⟨p, hp, ht, hne⟩ := h
      exact absurd ⟨p, hp, ht, (hnone p).2 hne⟩ hbad

/-! ### `FillShowers`: one iteration -/

theorem growTo_eq (l : List SRNDLArInt) (idx : Nat) :
    growTo l idx = l ++ List.replicate (idx + 1 - l.length) ({} : SRNDLArInt) := by
  unfold growTo resize
  split_ifs with h
  · rw [List.take_of_length_le (by omega)]
  · have : idx + 1 - l.length = 0 := by omega
    simp [this]

theorem growTo_length (l : List SRNDLArInt) (idx : Nat) :
    (growTo l idx).length = max l.length (idx + 1) := by
  rw [growTo_eq]
  simp
  omega

theorem growTo_get (l : List SRNDLArInt) (idx : Nat) :
    (growTo l idx)[idx]? = some ((l[idx]?).getD ({} : SRNDLArInt)) := by
  rw [growTo_eq]
  by_cases h : idx < l.length
  · rw [List.getElem?_append_left h, List.getElem?_eq_getElem h]
    rfl
  · have hle : l.length ≤ idx := by omega
    rw [List.getElem?_append_right hle, List.getElem?_eq_none hle,
      List.getElem?_replicate, if_pos (by omega)]
    rfl

theorem growTo_get_old (l : List SRNDLArInt) (idx j : Nat) (hj : j < l.length) :
    (growTo l idx)[j]? = l[j]? := by
  rw [growTo_eq, List.getElem?_append_left hj]

theorem FillShowers_step_skip (s : StandardRecord) (p : dlp.Particle)
    (hs : p.semantic_type ≠ .kShower) : FillShowers.step s p = .ok s := by
  simp [FillShowers.step, hs]

/-- The returning iteration of `FillShowers` for a Shower-typed row, in closed form. -/
theorem FillShowers_step_shower (s : StandardRecord) (p : dlp.Particle)
    (hs : p.semantic_type = .kShower) (h0 : 0 ≤ p.interaction_id) :
    FillShowers.step s p = .ok (s.setNDLArDlp
      ((growTo s.nd.lar.dlp p.interaction_id.toNat).set p.interaction_id.toNat
        { tracks := ((s.nd.lar.dlp[p.interaction_id.toNat]?).getD ({} : SRNDLArInt)).tracks
          showers := ((s.nd.lar.dlp[p.interaction_id.toNat]?).getD ({} : SRNDLArInt)).showers
            ++ [mkShower p] })) := by
  have hneg : ¬ p.interaction_id < 0 := by omega
  simp [FillShowers.step, hs, hneg, growTo_get]

theorem FillShowers_single (s s1 : StandardRecord) (p : dlp.Particle)
    (h : FillShowers.step s p = .ok s1) : FillShowers [p] s = .ok s1 := by
  simp [FillShowers, forEach, h]

theorem FillShowers_step_negative (s : StandardRecord) (p : dlp.Particle)
    (hs : p.semantic_type = .kShower) (h0 : p.interaction_id < 0) :
    FillShowers.step s p = .error .Undefined := by
  simp [FillShowers.step, hs, h0]

/-- C13 fails as stated: with interactions of ids 5 and 6 at positions 0 and 1, a
Shower-typed row with interaction id 1 matches no interaction, and `FillShowers`
returns without growing the container, which keeps its two entries. -/
theorem FillShowers_unmatched_without_growth :
    (∀ ixn ∈ recoIds56.common.ixn.dlp, ixn.id ≠ showerRow1.interaction_id) ∧
    ∃ sr1 sr2, FillTracks FloatOps.exact [] recoIds56 = .ok sr1 ∧
      FillShowers [showerRow1] sr1 = .ok sr2 ∧
      sr1.nd.lar.dlp.length = 2 ∧ sr2.nd.lar.dlp.length = 2 :=
  ⟨by decide, _, _, rfl, rfl, by decide, by decide⟩

/-- C13 as amended: `FillTracks` aborts with DanglingReference exactly when some
Track-typed row has an interaction id equal to the id of no reconstructed
interaction of the record, and otherwise returns; in particular it aborts on a
Track-typed row `p` with such an id.  On a Shower-typed row `p` with such an id,
not negative, `FillShowers` returns and appends the shower to one shower list,
leaving the shower lists at the other positions as they were; the container
grows, to `id + 1` entries, exactly when the id is not below its length. -/
theorem dangling_reference_asymmetry (ops : FloatOps) (ps : List dlp.Particle)
    (sr : StandardRecord) (p : dlp.Particle)
    (hp : ∀ ixn ∈ sr.common.ixn.dlp, ixn.id ≠ p.interaction_id) :
    (FillTracks ops ps sr = .error .DanglingReference ↔
      ∃ q ∈ ps, q.semantic_type = .kTrack ∧
        ∀ ixn ∈ sr.common.ixn.dlp, ixn.id ≠ q.interaction_id) ∧
    ((∃ sr', FillTracks ops ps sr = .ok sr') ∨
      FillTracks ops ps sr = .error .DanglingReference) ∧
    (p.semantic_type = .kTrack → FillTracks ops [p] sr = .error .DanglingReference) ∧
    (p.semantic_type = .kShower → 0 ≤ p.interaction_id →
      ∃ sr', FillShowers [p] sr = .ok sr' ∧
        sr'.nd.lar.dlp.length = max sr.nd.lar.dlp.length (p.interaction_id.toNat + 1) ∧
        (sr.nd.lar.dlp.length < sr'.nd.lar.dlp.length ↔
          sr.nd.lar.dlp.length ≤ p.interaction_id.toNat) ∧
        ∃ k, showersAt sr' k = some ((showersAt sr k).getD [] ++ [mkShower p]) ∧
          ∀ j, j ≠ k → j < sr.nd.lar.dlp.length → showersAt sr' j = showersAt sr j) := by
  refine ⟨(FillTracks_outcome ops ps sr).1, (FillTracks_outcome ops ps sr).2, ?_, ?_⟩
  · intro ht
    exact (FillTracks_outcome ops [p] sr).1.2 ⟨p, List.mem_singleton_self p, ht, hp⟩
  · intro hs h0
    have hstep := FillShowers_step_shower sr p hs h0
    refine ⟨_, FillShowers_single _ _ _ hstep, ?_, ?_, p.interaction_id.toNat, ?_, ?_⟩
    · simp [(setNDLArDlp_proj _ _).1, growTo_length]
    · simp [(setNDLArDlp_proj _ _).1, growTo_length]
      omega
    · simp only [showersAt, (setNDLArDlp_proj _ _).1]
      rw [List.getElem?_set_self (by rw [growTo_length]; omega)]
      cases sr.nd.lar.dlp[p.interaction_id.toNat]? <;> rfl
    · intro j hj hlt
      simp only [showersAt, (setNDLArDlp_proj _ _).1]
      rw [List.getElem?_set_ne (Ne.symm hj), growTo_get_old _ _ _ hlt]

/-- C13 as amended, on the record with interactions of ids 5 and 6: the Track-typed
row of interaction 1 makes `FillTracks` abort, and the Shower-typed row of
interaction 1 makes `FillShowers` return with the container at the length
`max 0 2 = 2` it computes from the empty container of that record. -/
theorem dangling_reference_asymmetry_witness :
    (∀ ixn ∈ recoIds56.common.ixn.dlp, ixn.id ≠ trackRow1.interaction_id) ∧
    FillTracks FloatOps.exact [trackRow1] recoIds56 = .error .DanglingReference ∧
    ∃ sr', FillShowers [showerRow1] recoIds56 = .ok sr' ∧ sr'.nd.lar.dlp.length = 2 := by
  have H := dangling_reference_asymmetry FloatOps.exact [] recoIds56 trackRow1 (by decide)
  have H' := dangling_reference_asymmetry FloatOps.exact [] recoIds56 showerRow1 (by decide)
  refine ⟨by decide, H.2.2.1 rfl, ?_⟩
  obtain ⟨sr', h1, h2, -⟩ := H'.2.2.2 rfl (by decide)
  exact ⟨sr', h1, by rw [h2]; decide⟩

/-! ### Rows of other semantic types, and the number of objects added -/

theorem forEach_filter {σ α : Type} (step : σ → α → Except Err σ) (keep : α → Bool)
    (hskip : ∀ s a, keep a = false → step s a = .ok s) (l : List α) (s : σ) :
    forEach step s l = forEach step s (l.filter keep) := by
  induction l generalizing s with
  | nil => rfl
  | cons a as ih =>
    by_cases hk : keep a = true
    · rw [List.filter_cons_of_pos hk]
      cases hs : step s a with
      | error e => rw [forEach_cons_error _ _ _ _ _ hs, forEach_cons_error _ _ _ _ _ hs]
      | ok s1 => rw [forEach_cons_ok _ _ _ _ _ hs, forEach_cons_ok _ _ _ _ _ hs, ih]
    · have hk' : keep a = false := by simpa using hk
      rw [List.filter_cons_of_neg hk, forEach_cons_ok _ _ _ _ _ (hskip s a hk'), ih]

theorem forEach_count {σ α : Type} (step : σ → α → Except Err σ) (m : σ → Nat) (c : α → Bool)
    (hstep : ∀ s a s1, step s a = .ok s1 → m s1 = m s + (if c a then 1 else 0))
    (l : List α) (s s' : σ) (h : forEach step s l = .ok s') :
    m s' = m s + (l.filter c).length := by
  induction l generalizing s with
  | nil =>
    simp only [forEach, Except.ok.injEq] at h
    subst h
    simp
  | cons a as ih =>
    cases hs : step s a with
    | error e =>
      rw [forEach_cons_error _ _ _ _ _ hs] at h
      simp at h
    | ok s1 =>
      rw [forEach_cons_ok _ _ _ _ _ hs] at h
      rw [ih s1 h, hstep s a s1 hs, List.filter_cons]
      split_ifs with hc
      · simp
        omega
      · simp

theorem sum_map_set {α : Type} (f : α → Nat) (l : List α) (k : Nat) (e e' : α)
    (hk : l[k]? = some e) : ((l.set k e').map f).sum + f e = (l.map f).sum + f e' := by
  induction l generalizing k with
  | nil => simp at hk
  | cons a as ih =>
    cases k with
    | zero =>
      simp only [List.getElem?_cons_zero, Option.some.injEq] at hk
      subst hk
      simp only [List.set_cons_zero, List.map_cons, List.sum_cons]
      omega
    | succ k =>
      simp only [List.getElem?_cons_succ] at hk
      have := ih k hk
      simp only [List.set_cons_succ, List.map_cons, List.sum_cons]
      omega

theorem totals_growTo (l : List SRNDLArInt) (idx : Nat) :
    totalTracks (growTo l idx) = totalTracks l ∧ totalShowers (growTo l idx) = totalShowers l := by
  rw [growTo_eq]
  simp [totalTracks, totalShowers]

theorem FillTracks_step_totals (ops : FloatOps) (s s1 : StandardRecord) (p : dlp.Particle)
    (h : FillTracks.step ops s p = .ok s1) :
    totalTracks s1.nd.lar.dlp
      = totalTracks s.nd.lar.dlp + (if decide (p.semantic_type = .kTrack) then 1 else 0) ∧
    totalShowers s1.nd.lar.dlp = totalShowers s.nd.lar.dlp := by
  unfold FillTracks.step at h
  by_cases ht : p.semantic_type = .kTrack
  · simp only [ht, ne_eq, not_true_eq_false, if_false] at h
    cases hf : find_if (fun ixn => decide (ixn.id = p.interaction_id)) s.common.ixn.dlp with
    | none => simp [hf] at h
    | some k =>
      simp only [hf] at h
      cases hk : s.nd.lar.dlp[k]? with
      | none => simp [hk] at h
      | some e =>
        simp only [hk, Except.ok.injEq] at h
        subst h
        have h1 := sum_map_set (fun e => e.tracks.length) s.nd.lar.dlp k e
          { e with tracks := e.tracks ++ [mkTrack ops p] } hk
        have h2 := sum_map_set (fun e => e.showers.length) s.nd.lar.dlp k e
          { e with tracks := e.tracks ++ [mkTrack ops p] } hk
        simp only [List.length_append, List.length_singleton] at h1 h2
        simp only [totalTracks, totalShowers, (setNDLArDlp_proj _ _).1, ht, decide_True, if_true]
        omega
  · simp only [ht, ne_eq, not_false_eq_true, if_true, Except.ok.injEq] at h
    subst h
    simp [ht]

theorem FillShowers_step_totals (s s1 : StandardRecord) (p : dlp.Particle)
    (h : FillShowers.step s p = .ok s1) :
    totalShowers s1.nd.lar.dlp
      = totalShowers s.nd.lar.dlp + (if decide (p.semantic_type = .kShower) then 1 else 0) ∧
    totalTracks s1.nd.lar.dlp = totalTracks s.nd.lar.dlp := by
  by_cases hs : p.semantic_type = .kShower
  · by_cases h0 : p.interaction_id < 0
    · rw [FillShowers_step_negative s p hs h0] at h
      simp at h
    · rw [FillShowers_step_shower s p hs (by omega), Except.ok.injEq] at h
      subst h
      have hg := growTo_get s.nd.lar.dlp p.interaction_id.toNat
      have h1 := sum_map_set (fun e => e.tracks.length) _ _ _
        { tracks := ((s.nd.lar.dlp[p.interaction_id.toNat]?).getD ({} : SRNDLArInt)).tracks
          showers := ((s.nd.lar.dlp[p.interaction_id.toNat]?).getD ({} : SRNDLArInt)).showers
            ++ [mkShower p] } hg
      have h2 := sum_map_set (fun e => e.showers.length) _ _ _
        { tracks := ((s.nd.lar.dlp[p.interaction_id.toNat]?).getD ({} : SRNDLArInt)).tracks
          showers := ((s.nd.lar.dlp[p.interaction_id.toNat]?).getD ({} : SRNDLArInt)).showers
            ++ [mkShower p] } hg
      simp only [List.length_append, List.length_singleton] at h1 h2
      have hT := totals_growTo s.nd.lar.dlp p.interaction_id.toNat
      simp only [totalTracks, totalShowers] at hT
      simp only [totalTracks, totalShowers, (setNDLArDlp_proj _ _).1, hs, decide_True, if_true]
      omega
  · rw [FillShowers_step_skip s p hs, Except.ok.injEq] at h
    subst h
    simp [hs]

/-- C16: rows whose semantic type is neither Track nor Shower are ignored.
`FillTracks`, `FillShowers` and `FillTracks` followed by `FillShowers` give the
same outcome on the full list of rows as on the list without the rows of other
types; and when both return, the number of tracks over all interactions is the
number left by the `resize` of line 123 plus the number of Track-typed rows, and
the number of showers is the number left by that `resize` plus the number of
Shower-typed rows. -/
theorem other_semantic_types_ignored (ops : FloatOps) (ps : List dlp.Particle)
    (sr : StandardRecord) :
    FillTracks ops ps sr = FillTracks ops (ps.filter trackOrShower) sr ∧
    (∀ s, FillShowers ps s = FillShowers (ps.filter trackOrShower) s) ∧
    FillTracksThenShowers ops ps sr = FillTracksThenShowers ops (ps.filter trackOrShower) sr ∧
    (∀ sr1 sr2, FillTracks ops ps sr = .ok sr1 → FillShowers ps sr1 = .ok sr2 →
      totalTracks sr2.nd.lar.dlp
        = totalTracks (resize sr.nd.lar.dlp sr.common.ixn.dlp.length {})
          + (ps.filter (fun p => decide (p.semantic_type = .kTrack))).length ∧
      totalShowers sr2.nd.lar.dlp
        = totalShowers (resize sr.nd.lar.dlp sr.common.ixn.dlp.length {})
          + (ps.filter (fun p => decide (p.semantic_type = .kShower))).length) := by
  have hT : ∀ s, forEach (FillTracks.step ops) s ps
      = forEach (FillTracks.step ops) s (ps.filter trackOrShower) := by
    intro s
    apply forEach_filter
    intro s a ha
    have : a.semantic_type ≠ .kTrack := by
      intro h
      simp [trackOrShower, h] at ha
    simp [FillTracks.step, this]
  have hS : ∀ s, FillShowers ps s = FillShowers (ps.filter trackOrShower) s := by
    intro s
    unfold FillShowers
    apply forEach_filter
    intro s a ha
    have : a.semantic_type ≠ .kShower := by
      intro h
      simp [trackOrShower, h] at ha
    exact FillShowers_step_skip s a this
  have hFT : FillTracks ops ps sr = FillTracks ops (ps.filter trackOrShower) sr := by
    unfold FillTracks
    exact hT _
  refine ⟨hFT, hS, ?_, ?_⟩
  · unfold FillTracksThenShowers
    rw [← hFT]
    cases FillTracks ops ps sr with
    | error e => rfl
    | ok sr1 => exact hS sr1
  · intro sr1 sr2 h1 h2
    unfold FillTracks at h1
    unfold FillShowers at h2
    have a1 := forEach_count (FillTracks.step ops) (fun s => totalTracks s.nd.lar.dlp)
      (fun p => decide (p.semantic_type = .kTrack))
      (fun s a s1 h => (FillTracks_step_totals ops s s1 a h).1) ps _ sr1 h1
    have a2 := forEach_count (FillTracks.step ops) (fun s => totalShowers s.nd.lar.dlp)
      (fun _ => false)
      (fun s a s1 h => by simpa using (FillTracks_step_totals ops s s1 a h).2) ps _ sr1 h1
    have b1 := forEach_count FillShowers.step (fun s => totalShowers s.nd.lar.dlp)
      (fun p => decide (p.semantic_type = .kShower))
      (fun s a s1 h => (FillShowers_step_totals s s1 a h).1) ps sr1 sr2 h2
    have b2 := forEach_count FillShowers.step (fun s => totalTracks s.nd.lar.dlp)
      (fun _ => false)
      (fun s a s1 h => by simpa using (FillShowers_step_totals s s1 a h).2) ps sr1 sr2 h2
    simp only [(setNDLArDlp_proj _ _).1, List.filter_false, List.length_nil, Nat.add_zero]
      at a1 a2 b1 b2
    exact ⟨by rw [b2, a1], by rw [b1, a2]⟩

/-- C16, on one interaction of id 0 and four rows (a track, a Michel electron, a
shower, a delta ray of an unknown interaction): both fillers return, and one track
and one shower were added. -/
theorem other_semantic_types_ignored_witness :
    ∃ sr1 sr2, FillTracks FloatOps.exact mixedRows recoId0 = .ok sr1 ∧
      FillShowers mixedRows sr1 = .ok sr2 ∧
      mixedRows.filter trackOrShower
        = [{ interaction_id := 0, semantic_type := .kTrack },
           { interaction_id := 0, semantic_type := .kShower }] ∧
      totalTracks sr2.nd.lar.dlp = 1 ∧ totalShowers sr2.nd.lar.dlp = 1 := by
  have H := (other_semantic_types_ignored FloatOps.exact mixedRows recoId0).2.2.2 _ _ rfl rfl
  exact ⟨_, _, rfl, rfl, by decide, H.1, H.2⟩

/-! ## The converter: kinematics in exact arithmetic -/

theorem GrowsTruth_refl (a : List SRTrueInteraction) : GrowsTruth a a :=
  ⟨le_refl _, fun _ x hx => ⟨x, hx, List.prefix_refl _, List.prefix_refl _, List.prefix_refl _⟩⟩

theorem GrowsTruth_trans (a b c : List SRTrueInteraction) (h1 : GrowsTruth a b)
    (h2 : GrowsTruth b c) : GrowsTruth a c := by
  refine ⟨le_trans h1.1 h2.1, ?_⟩
  intro i x hx
  obtain ⟨y, hy, p1, p2, p3⟩ := h1.2 i x hx
  obtain ⟨z, hz, q1, q2, q3⟩ := h2.2 i y hy
  exact ⟨z, hz, p1.trans q1, p2.trans q2, p3.trans q3⟩

theorem GrowsTruth_append (a m : List SRTrueInteraction) : GrowsTruth a (a ++ m) := by
  refine ⟨by simp, ?_⟩
  intro i x hx
  have hlt : i < a.length := (List.getElem?_eq_some.1 hx).1
  exact ⟨x, by rw [List.getElem?_append_left hlt, hx], List.prefix_refl _, List.prefix_refl _,
    List.prefix_refl _⟩

theorem GrowsTruth_set (a : List SRTrueInteraction) (k : Nat) (e e' : SRTrueInteraction)
    (hk : a[k]? = some e) (h1 : e.prim <+: e'.prim) (h2 : e.sec <+: e'.sec)
    (h3 : e.prefsi <+: e'.prefsi) : GrowsTruth a (a.set k e') := by
  refine ⟨by simp, ?_⟩
  intro i x hx
  have hlt : k < a.length := (List.getElem?_eq_some.1 hk).1
  by_cases hik : k = i
  · subst hik
    rw [hk] at hx
    injection hx with hx
    subst hx
    exact ⟨e', List.getElem?_set_self hlt, h1, h2, h3⟩
  · exact ⟨x, by rw [List.getElem?_set_ne hik, hx], List.prefix_refl _, List.prefix_refl _,
      List.prefix_refl _⟩

theorem GrowsObjects_refl (a : List SRNDLArInt) : GrowsObjects a a :=
  ⟨le_refl _, fun _ x hx => ⟨x, hx, List.prefix_refl _, List.prefix_refl _⟩⟩

theorem GrowsObjects_trans (a b c : List SRNDLArInt) (h1 : GrowsObjects a b)
    (h2 : GrowsObjects b c) : GrowsObjects a c := by
  refine ⟨le_trans h1.1 h2.1, ?_⟩
  intro i x hx
  obtain ⟨y, hy, p1, p2⟩ := h1.2 i x hx
  obtain ⟨z, hz, q1, q2⟩ := h2.2 i y hy
  exact ⟨z, hz, p1.trans q1, p2.trans q2⟩

theorem GrowsObjects_append (a m : List SRNDLArInt) : GrowsObjects a (a ++ m) := by
  refine ⟨by simp, ?_⟩
  intro i x hx
  have hlt : i < a.length := (List.getElem?_eq_some.1 hx).1
  exact ⟨x, by rw [List.getElem?_append_left hlt, hx], List.prefix_refl _, List.prefix_refl _⟩

theorem GrowsObjects_set (a : List SRNDLArInt) (k : Nat) (e e' : SRNDLArInt)
    (hk : a[k]? = some e) (h1 : e.tracks <+: e'.tracks) (h2 : e.showers <+: e'.showers) :
    GrowsObjects a (a.set k e') := by
  refine ⟨by simp, ?_⟩
  intro i x hx
  have hlt : k < a.length := (List.getElem?_eq_some.1 hk).1
  by_cases hik : k = i
  · subst hik
    rw [hk] at hx
    injection hx with hx
    subst hx
    exact ⟨e', List.getElem?_set_self hlt, h1, h2⟩
  · exact ⟨x, by rw [List.getElem?_set_ne hik, hx], List.prefix_refl _, List.prefix_refl _⟩

theorem resize_of_le {α : Type} (l : List α) (n : Nat) (d : α) (h : l.length ≤ n) :
    resize l n d = l ++ List.replicate (n - l.length) d := by
  unfold resize
  rw [List.take_of_length_le h]

theorem Grows_refl (sr : StandardRecord) : Grows sr sr :=
  ⟨GrowsTruth_refl _, List.prefix_refl _, GrowsObjects_refl _⟩

theorem Grows_trans (a b c : StandardRecord) (h1 : Grows a b) (h2 : Grows b c) : Grows a c :=
  ⟨GrowsTruth_trans _ _ _ h1.1 h2.1, h1.2.1.trans h2.2.1, GrowsObjects_trans _ _ _ h1.2.2 h2.2.2⟩

theorem setNu_proj (sr : StandardRecord) (l : List SRTrueInteraction) :
    (sr.setNu l).mc.nu = l ∧ (sr.setNu l).common = sr.common ∧ (sr.setNu l).nd = sr.nd := by
  simp [StandardRecord.setNu]

theorem Grows_setNu (sr : StandardRecord) (l : List SRTrueInteraction)
    (h : GrowsTruth sr.mc.nu l) : Grows sr (sr.setNu l) := by
  refine ⟨?_, ?_, ?_⟩
  · rw [(setNu_proj sr l).1]
    exact h
  · rw [(setNu_proj sr l).2.1]
  · rw [(setNu_proj sr l).2.2]
    exact GrowsObjects_refl _

theorem Grows_setNDLArDlp (sr : StandardRecord) (l : List SRNDLArInt)
    (h : GrowsObjects sr.nd.lar.dlp l) : Grows sr (sr.setNDLArDlp l) := by
  refine ⟨?_, ?_, ?_⟩
  · rw [(setNDLArDlp_proj sr l).2.2]
    exact GrowsTruth_refl _
  · rw [(setNDLArDlp_proj sr l).2.1]
  · rw [(setNDLArDlp_proj sr l).1]
    exact h

theorem GetTrueInteraction_grows (ops : FloatOps) (fuel : Nat) (sr sr' : StandardRecord)
    (t t' : GTree) (ixnID : Int) (createNew : Bool) (i : Nat)
    (h : GetTrueInteraction ops fuel sr t ixnID createNew = (.ok i, sr', t')) : Grows sr sr' := by
  cases hfind : find_if (fun ixn => decide (ixn.id = ixnID)) sr.mc.nu with
  | some i0 =>
    rw [GetTrueInteraction_found ops fuel sr t ixnID createNew i0 hfind] at h
    simp only [Prod.mk.injEq, Except.ok.injEq] at h
    obtain ⟨-, rfl, -⟩ := h
    exact Grows_refl sr
  | none =>
    cases createNew with
    | false =>
      rw [GetTrueInteraction_absent_nocreate ops fuel sr t ixnID hfind] at h
      simp at h
    | true =>
      obtain ⟨gEvt, ixn, -, -, -, -, rfl, -⟩ :=
        GetTrueInteraction_create_ok ops fuel sr sr' t t' ixnID i hfind h
      exact ⟨GrowsTruth_append _ _, List.prefix_refl _, GrowsObjects_refl _⟩

theorem appendStub_grows (ixn : SRTrueInteraction) (ixnID G4ID : Int) (isPrimary : Bool) :
    ixn.prim <+: (appendStub ixn ixnID G4ID isPrimary).prim ∧
    ixn.sec <+: (appendStub ixn ixnID G4ID isPrimary).sec ∧
    ixn.prefsi <+: (appendStub ixn ixnID G4ID isPrimary).prefsi := by
  cases isPrimary <;> simp [appendStub]

theorem GetTrueParticle_grows (ops : FloatOps) (fuel : Nat) (sr sr' : StandardRecord)
    (t t' : GTree) (ixnID G4ID : Int) (isPrimary createNew : Bool) (ij : Nat × Nat)
    (h : GetTrueParticle ops fuel sr t ixnID G4ID isPrimary createNew = (.ok ij, sr', t')) :
    Grows sr sr' := by
  rcases hr : GetTrueInteraction ops fuel sr t ixnID createNew with ⟨o, sr1, t1⟩
  cases o with
  | error e =>
    rw [GetTrueParticle_error ops fuel sr sr1 t t1 ixnID G4ID isPrimary createNew e hr] at h
    simp at h
  | ok i =>
    have hG1 := GetTrueInteraction_grows ops fuel sr sr1 t t1 ixnID createNew i hr
    obtain ⟨ixn, hixn, -⟩ := GetTrueInteraction_ok_get ops fuel sr sr1 t t1 ixnID createNew i hr
    rw [GetTrueParticle_unfold ops fuel sr sr1 t t1 ixnID G4ID isPrimary createNew i ixn hr hixn]
      at h
    cases hp : find_if (fun part => decide (part.G4ID = G4ID)) (collection ixn isPrimary) with
    | some j =>
      simp only [hp, Prod.mk.injEq] at h
      rw [← h.2.1]
      exact hG1
    | none =>
      simp only [hp] at h
      cases createNew with
      | false => simp at h
      | true =>
        simp only [Bool.not_true, Bool.false_eq_true, if_false, Prod.mk.injEq] at h
        rw [← h.2.1]
        refine Grows_trans _ _ _ hG1 ⟨?_, List.prefix_refl _, GrowsObjects_refl _⟩
        obtain ⟨a1, a2, a3⟩ := appendStub_grows ixn ixnID G4ID isPrimary
        exact GrowsTruth_set _ _ _ _ hixn a1 a2 a3

theorem FillInteractions_grows (evtIdx : Nat) (rows : List dlp.Interaction)
    (sr : StandardRecord) : Grows sr (FillInteractions evtIdx rows sr) := by
  obtain ⟨h1, -, h3, h4⟩ := FillInteractions_spec evtIdx rows sr
  refine ⟨?_, ?_, ?_⟩
  · rw [h3]
    exact GrowsTruth_refl _
  · rw [h1]
    exact List.prefix_append _ _
  · rw [h4]
    exact GrowsObjects_refl _

theorem GrowsObjects_growTo (l : List SRNDLArInt) (idx : Nat) : GrowsObjects l (growTo l idx) := by
  rw [growTo_eq]
  exact GrowsObjects_append _ _

theorem FillShowers_step_grows (s s1 : StandardRecord) (p : dlp.Particle)
    (h : FillShowers.step s p = .ok s1) : Grows s s1 := by
  by_cases hs : p.semantic_type = .kShower
  · by_cases h0 : p.interaction_id < 0
    · rw [FillShowers_step_negative s p hs h0] at h
      simp at h
    · rw [FillShowers_step_shower s p hs (by omega), Except.ok.injEq] at h
      subst h
      apply Grows_setNDLArDlp
      refine GrowsObjects_trans _ _ _ (GrowsObjects_growTo _ p.interaction_id.toNat) ?_
      exact GrowsObjects_set _ _ _ _ (growTo_get _ _) (List.prefix_refl _)
        (List.prefix_append _ _)
  · rw [FillShowers_step_skip s p hs, Except.ok.injEq] at h
    subst h
    exact Grows_refl _

theorem FillShowers_grows (ps : List dlp.Particle) (sr sr' : StandardRecord)
    (h : FillShowers ps sr = .ok sr') : Grows sr sr' :=
  forEach_rel FillShowers.step Grows Grows_refl Grows_trans
    (fun s a s1 hs => FillShowers_step_grows s s1 a hs) ps sr sr' h

theorem FillTracks_step_grows (ops : FloatOps) (s s1 : StandardRecord) (p : dlp.Particle)
    (h : FillTracks.step ops s p = .ok s1) : Grows s s1 := by
  unfold FillTracks.step at h
  by_cases ht : p.semantic_type = .kTrack
  · simp only [ht, ne_eq, not_true_eq_false, if_false] at h
    cases hf : find_if (fun ixn => decide (ixn.id = p.interaction_id)) s.common.ixn.dlp with
    | none => simp [hf] at h
    | some k =>
      simp only [hf] at h
      cases hk : s.nd.lar.dlp[k]? with
      | none => simp [hk] at h
      | some e =>
        simp only [hk, Except.ok.injEq] at h
        subst h
        apply Grows_setNDLArDlp
        exact GrowsObjects_set _ _ _ _ hk (List.prefix_append _ _) (List.prefix_refl _)
  · simp only [ht, ne_eq, not_false_eq_true, if_true, Except.ok.injEq] at h
    subst h
    exact Grows_refl _

theorem FillTracks_grows (ops : FloatOps) (ps : List dlp.Particle) (sr sr' : StandardRecord)
    (hlen : sr.nd.lar.dlp.length ≤ sr.common.ixn.dlp.length)
    (h : FillTracks ops ps sr = .ok sr') : Grows sr sr' := by
  unfold FillTracks at h
  refine Grows_trans _ _ _ ?_
    (forEach_rel (FillTracks.step ops) Grows Grows_refl Grows_trans
      (fun s a s1 hs => FillTracks_step_grows ops s s1 a hs) ps _ sr' h)
  apply Grows_setNDLArDlp
  rw [resize_of_le _ _ _ hlen]
  exact GrowsObjects_append _ _

theorem FillTruth_partStep_grows (evtIdx : Nat) (trueInx : dlp.TrueInteraction) (i : Nat)
    (s s1 : StandardRecord) (truePart : dlp.TrueParticle)
    (h : FillTruth.partStep evtIdx trueInx i s truePart = .ok s1) : Grows s s1 := by
  unfold FillTruth.partStep at h
  by_cases hp : truePart.is_primary = true
  · simp only [hp, if_true] at h
    cases hid : trueInx.particle_ids[i]? with
    | none => simp [hid] at h
    | some partId =>
      simp only [hid] at h
      cases he : s.mc.nu[evtIdx]? with
      | none => simp [he] at h
      | some e =>
        simp only [he, Except.ok.injEq] at h
        subst h
        apply Grows_setNu
        exact GrowsTruth_set _ _ _ _ he (List.prefix_append _ _) (List.prefix_refl _)
          (List.prefix_refl _)
  · simp only [hp, Bool.false_eq_true, if_false, Except.ok.injEq] at h
    subst h
    exact Grows_refl _

theorem FillTruth_inxStep_grows (evtIdx : Nat) (trueParticles : List dlp.TrueParticle)
    (s s1 : StandardRecord) (trueInx : dlp.TrueInteraction)
    (h : FillTruth.inxStep evtIdx trueParticles s trueInx = .ok s1) : Grows s s1 := by
  unfold FillTruth.inxStep at h
  refine Grows_trans s (s.setNu (s.mc.nu ++ [mkTrueInteraction trueInx])) s1
    (Grows_setNu s (s.mc.nu ++ [mkTrueInteraction trueInx]) (GrowsTruth_append _ _)) ?_
  refine forEach_rel _ Grows Grows_refl Grows_trans ?_ _ _ s1 h
  intro a i b hab
  exact forEach_rel _ Grows Grows_refl Grows_trans
    (fun x q y hxy => FillTruth_partStep_grows evtIdx trueInx i x y q hxy) trueParticles a b hab

theorem FillTruth_grows (evtIdx : Nat) (trueParticles : List dlp.TrueParticle)
    (trueInxns : List dlp.TrueInteraction) (sr sr' : StandardRecord)
    (hlen : sr.mc.nu.length ≤ trueInxns.length)
    (h : FillTruth evtIdx trueParticles trueInxns sr = .ok sr') : Grows sr sr' := by
  unfold FillTruth at h
  refine Grows_trans _ _ _ ?_
    (forEach_rel _ Grows Grows_refl Grows_trans
      (fun x q y hxy => FillTruth_inxStep_grows evtIdx trueParticles x y q hxy) trueInxns _ sr' h)
  apply Grows_setNu
  rw [resize_of_le _ _ _ hlen]
  exact GrowsTruth_append _ _

/-- C15 fails as stated.  `FillShowers` on a fresh record and one Shower-typed row
of interaction 0 leaves one container holding one shower; `FillTracks` on that
record resizes `nd.lar.dlp` to the size 0 of `common.ixn.dlp` and the container is
gone.  And the reconstruction filler's `FillTruth` with no truth rows, on the
record in which `GetTrueInteraction` created the interaction of id 10, resizes
`mc.nu` to 0 entries. -/
theorem resize_shrinks_collections :
    (∃ sr0 sr', FillShowers [showerRow0] {} = .ok sr0 ∧
      FillTracks FloatOps.exact [] sr0 = .ok sr' ∧
      sr0.nd.lar.dlp.length = 1 ∧ totalShowers sr0.nd.lar.dlp = 1 ∧
      sr'.nd.lar.dlp.length = 0 ∧ ¬ Grows sr0 sr') ∧
    (GetTrueInteraction FloatOps.exact 0 {} stream3 10 true).1 = .ok 0 ∧
    (GetTrueInteraction FloatOps.exact 0 {} stream3 10 true).2.1.mc.nu.length = 1 ∧
    (∃ sr', FillTruth 0 [] []
        (GetTrueInteraction FloatOps.exact 0 {} stream3 10 true).2.1 = .ok sr' ∧
      sr'.mc.nu.length = 0 ∧
      ¬ Grows (GetTrueInteraction FloatOps.exact 0 {} stream3 10 true).2.1 sr') := by
  refine ⟨⟨_, _, rfl, rfl, by decide, by decide, by decide, ?_⟩, by decide, by decide,
    ⟨_, rfl, by decide, ?_⟩⟩
  · intro h
    have := h.2.2.1
    revert this
    decide
  · intro h
    have := h.1.1
    revert this
    decide

/-- C15 as amended: the destination record only grows where no `resize` cuts a
collection.  For every input state, `GetTrueInteraction`, `GetTrueParticle`,
`FillInteractions` and `FillShowers`, when they return, leave a record in which
the truth interactions, the reconstructed interactions and the per-interaction
containers are at least as many as before, the reconstructed interactions of
before are a prefix, and every truth interaction and container of before is at
its position with its particle, track and shower lists extended at the end.  The
same holds of `FillTracks` when `nd.lar.dlp` is not longer than `common.ixn.dlp`
at the call, and of the filler's `FillTruth` when `mc.nu` is not longer than the
list of truth-interaction rows. -/
theorem filling_only_grows (ops : FloatOps) (fuel : Nat) (sr : StandardRecord) (t : GTree)
    (ixnID G4ID : Int) (isPrimary createNew : Bool) (evtIdx : Nat)
    (trueParticles : List dlp.TrueParticle) (trueInxns : List dlp.TrueInteraction)
    (Inxns : List dlp.Interaction) (particles : List dlp.Particle) :
    (∀ i sr' t', GetTrueInteraction ops fuel sr t ixnID createNew = (.ok i, sr', t') →
      Grows sr sr') ∧
    (∀ ij sr' t',
      GetTrueParticle ops fuel sr t ixnID G4ID isPrimary createNew = (.ok ij, sr', t') →
      Grows sr sr') ∧
    Grows sr (FillInteractions evtIdx Inxns sr) ∧
    (∀ sr', FillShowers particles sr = .ok sr' → Grows sr sr') ∧
    (∀ sr', sr.nd.lar.dlp.length ≤ sr.common.ixn.dlp.length →
      FillTracks ops particles sr = .ok sr' → Grows sr sr') ∧
    (∀ sr', sr.mc.nu.length ≤ trueInxns.length →
      FillTruth evtIdx trueParticles trueInxns sr = .ok sr' → Grows sr sr') :=
  ⟨fun i sr' t' h => GetTrueInteraction_grows ops fuel sr sr' t t' ixnID createNew i h,
    fun ij sr' t' h =>
      GetTrueParticle_grows ops fuel sr sr' t t' ixnID G4ID isPrimary createNew ij h,
    FillInteractions_grows evtIdx Inxns sr,
    fun sr' h => FillShowers_grows particles sr sr' h,
    fun sr' hlen h => FillTracks_grows ops particles sr sr' hlen h,
    fun sr' hlen h => FillTruth_grows evtIdx trueParticles trueInxns sr sr' hlen h⟩

/-- C15 as amended, on the record with one interaction of id 5: `FillTracks` and
`FillShowers` on a Track-typed and a Shower-typed row of interaction 5 return
and the record grew; so did the fresh record under `FillInteractions` and under
`FillTruth` with one truth row. -/
theorem filling_only_grows_witness :
    Grows {} recoId5 ∧
    (∃ sr', FillTracks FloatOps.exact [trackRow5, showerRow5] recoId5 = .ok sr' ∧
      Grows recoId5 sr') ∧
    (∃ sr', FillShowers [trackRow5, showerRow5] recoId5 = .ok sr' ∧ Grows recoId5 sr') ∧
    (∃ sr', FillTruth 0 [truePrimary7] [truthRow7] {} = .ok sr' ∧ Grows {} sr') := by
  have H := filling_only_grows FloatOps.exact 0 recoId5 stream3 10 7 true true 0
    [truePrimary7] [truthRow7] [] [trackRow5, showerRow5]
  have H0 := filling_only_grows FloatOps.exact 0 {} stream3 10 7 true true 0
    [truePrimary7] [truthRow7] [{ id := 5 }] []
  exact ⟨H0.2.2.1, ⟨_, rfl, H.2.2.2.2.1 _ (by decide) rfl⟩, ⟨_, rfl, H.2.2.2.1 _ rfl⟩,
    ⟨_, rfl, H0.2.2.2.2.2 _ (by decide) rfl⟩⟩

end cafmaker
